import Mathlib

/-!
Verification development for the environment-initialization orchestrator
(`packages/amplify-cli/src/initialize-env.ts`).

The TypeScript source is shallowly embedded: JavaScript objects become
association lists of string keys (`Obj`), JavaScript mutation becomes
functional update, promise rejection becomes `Except JsErr`, and the
orchestration run becomes a pure function from a collaborator record (`Env`)
to a trace of observable events plus a final outcome.
-/

namespace InitializeEnvModel

/-- A JavaScript value as far as the orchestrator observes it: `undefined`,
an opaque primitive (`atom`), or an object given as an association list of
string keys in insertion order. -/
inductive Val where
  | undefined : Val
  | atom : String → Val
  | obj : List (String × Val) → Val

/-- A JavaScript object: keys with values, in insertion order. -/
abbrev Obj := List (String × Val)

/-- Property read `o[k]`: the value of the first entry with key `k`,
`undefined` when the key is absent. -/
def getKey : Obj → String → Val
  | [], _ => .undefined
  | p :: rest, k => if p.1 = k then p.2 else getKey rest k

/-- Whether the object has an own property `k`. -/
def hasKey (o : Obj) (k : String) : Bool :=
  o.any (fun p => decide (p.1 = k))

/-- Property write `o[k] = v`: an existing key keeps its position and gets the
new value, a fresh key is appended (JavaScript insertion-order semantics). -/
def setKey (o : Obj) (k : String) (v : Val) : Obj :=
  if hasKey o k then o.map (fun p => if p.1 = k then (k, v) else p)
  else o ++ [(k, v)]

/-- Models `Object.assign(target, source)`: copy every own property of `source` into
`target`, in source order; source values win for shared keys. -/
def objAssign (target source : Obj) : Obj :=
  source.foldl (fun acc p => setKey acc p.1 p.2) target

/-- A JavaScript error as far as the orchestrator observes it: a plain
`Error`, a `TypeError` raised by the runtime, or an Amplify fault.

Modelled from the spec: `amplifyFaultWithTroubleshootingLink` lives in the
`amplify-cli-core` package, which is outside the sources at hand; per the
spec a fault is a single captured failure carrying a fault name, a
human-readable message, and the underlying cause. -/
inductive JsErr where
  | error : String → JsErr
  | typeError : String → JsErr
  | fault : String → String → JsErr → JsErr
deriving DecidableEq

/-- The `message` property of an error. -/
def JsErr.message : JsErr → String
  | .error m => m
  | .typeError m => m
  | .fault _ m _ => m

/-- The single-quote character used inside fault messages. -/
def squote : String := (Char.ofNat 39).toString

/-- Modelled from the spec: a resource parameter manager of the
`@aws-amplify/amplify-environment-parameters` collaborator; it answers
`hasAnyParams()` and `getAllParams()` over a recorded parameter mapping. -/
structure ResourceParamManager where
  params : List (String × Val)

/-- Models `resourceParamManager.hasAnyParams()`. -/
def ResourceParamManager.hasAnyParams (r : ResourceParamManager) : Bool :=
  !r.params.isEmpty

/-- Models `resourceParamManager.getAllParams()`. -/
def ResourceParamManager.getAllParams (r : ResourceParamManager) : List (String × Val) :=
  r.params

/-- Modelled from the spec: the environment parameter manager collaborator,
keyed by (category, resource) pairs. -/
structure EnvParamManager where
  entries : List ((String × String) × ResourceParamManager)

/-- Models `envParamManager.hasResourceParamManager(category, service)`. -/
def EnvParamManager.hasResourceParamManager
    (m : EnvParamManager) (category service : String) : Bool :=
  m.entries.any (fun e => decide (e.1 = (category, service)))

/-- Models `envParamManager.getResourceParamManager(category, service)`; an absent
entry behaves as an empty manager (the source only calls this guarded by
`hasResourceParamManager`). -/
def EnvParamManager.getResourceParamManager
    (m : EnvParamManager) (category service : String) : ResourceParamManager :=
  match m.entries.find? (fun e => decide (e.1 = (category, service))) with
  | some e => e.2
  | none => ⟨[]⟩

/-- The guard of `mergeCategoryEnvParamsIntoAmplifyMeta`:
`envParamManager.hasResourceParamManager(category, serviceName) &&
 envParamManager.getResourceParamManager(category, serviceName).hasAnyParams()`. -/
def overridesPresent (epm : EnvParamManager) (category serviceName : String) : Bool :=
  epm.hasResourceParamManager category serviceName
    && (epm.getResourceParamManager category serviceName).hasAnyParams

/-- The function `mergeBackendConfigIntoAmplifyMeta` (initialize-env.ts line 153):
`Object.assign(amplifyMeta, backendConfig)`, with the backend-config file
contents passed in as the collaborator read result. -/
def mergeBackendConfigIntoAmplifyMeta (amplifyMeta backendConfig : Obj) : Obj :=
  objAssign amplifyMeta backendConfig

/-- The function `mergeCategoryEnvParamsIntoAmplifyMeta` (initialize-env.ts line 158):
when the parameter manager records parameters for (category, serviceName),
`Object.assign(amplifyMeta[category][serviceName], …getAllParams())`.
Indexing `undefined` or calling `Object.assign` on a missing entry raises a
`TypeError`; a primitive entry is modelled the same way (the meta holds JSON
objects at category and resource level whenever the entry exists). -/
def mergeCategoryEnvParamsIntoAmplifyMeta (epm : EnvParamManager)
    (amplifyMeta : Obj) (category serviceName : String) : Except JsErr Obj :=
  if overridesPresent epm category serviceName then
    match getKey amplifyMeta category with
    | .obj catObj =>
      match getKey catObj serviceName with
      | .obj svcObj =>
        .ok (setKey amplifyMeta category (.obj (setKey catObj serviceName
          (.obj (objAssign svcObj
            (epm.getResourceParamManager category serviceName).getAllParams)))))
      | _ => .error (.typeError "Cannot convert undefined or null to object")
    | _ => .error (.typeError "Cannot read properties of undefined")
  else .ok amplifyMeta

/-- A plugin module as loaded by dynamic `import`: the optional `initEnv`
hook (invoked with the provider metadata as second argument, `undefined` for
category plugins) and the optional `pushResources` hook (invoked with a
resource definition). Each hook invocation either resolves or rejects. -/
structure PluginModule where
  initEnvHook : Option (Val → Except JsErr Unit)
  pushResourcesHook : Option (Val → Except JsErr Unit)

/-- The outcome of a dynamic `import(location)`. -/
inductive LoadResult where
  | loaded : PluginModule → LoadResult
  | failed : JsErr → LoadResult

/-- The phase identifiers of `ManuallyTimedCodePath` used by the
orchestrator. -/
inductive TimerId where
  | initEnvPlatform
  | initEnvCategories
deriving DecidableEq

/-- An observable collaborator interaction of one orchestration run. -/
inductive Event where
  | mergeBackendConfig
  | mergeEnvParams (category serviceName : String)
  | setMeta (meta : Obj)
  | spinnerStart (isPulling : Bool)
  | spinnerSucceed (isPulling : Bool)
  | spinnerFail
  | timerStart (id : TimerId)
  | timerStop (id : TimerId)
  | projectDetails
  | confirmPrompt
  | providerInitEnv (provider : String) (providerMeta : Val)
  | categoryInitEnv (location : String)
  | pushResources (provider : String) (resourceDefinition : Val)
  | outputsChanged
  | printSuccess (isPulling : Bool)

/-- A queued zero-argument hook invocation: the interaction events it emits
when it runs, plus its outcome. -/
structure HookTask where
  events : List Event
  result : Except JsErr Unit

/-- Modelled from the spec: the `promise-sequential` dependency
(SequentialTaskExecutor): run the tasks strictly in list order, stop at the
first failure and propagate its error, succeed on the empty list. -/
def sequential : List HookTask → List Event × Except JsErr Unit
  | [] => ([], .ok ())
  | t :: ts =>
    match t.result with
    | .error e => (t.events, .error e)
    | .ok _ => (t.events ++ (sequential ts).1, (sequential ts).2)

/-- The collaborators and inputs of one `initializeEnv` run: the local
environment info, the state-manager file contents, the parameter manager,
the plugin registry, the project configuration and the UI/ project facade
answers (spec section 6). `initialMetaStore` is the meta the state manager
holds before the run (what `getMeta()` returns until `setMeta` is called). -/
structure Env where
  envName : String
  isPulling : Bool
  restoreBackend : Bool
  teamProviderInfo : Obj
  backendConfig : Obj
  envParamManager : EnvParamManager
  initialMetaStore : Obj
  categoryPluginInfo : List (String × List String)
  modules : String → LoadResult
  providers : List String
  providerPlugins : String → String
  forcePush : Option Bool
  confirmAnswer : Bool
  resourceStatus : String → Val
  outputsResult : Except JsErr Unit

/-- The read `teamProviderInfo?.[currentEnv]?.awscloudformation` (line 29). -/
def tpiProviderMeta (env : Env) : Val :=
  match getKey env.teamProviderInfo env.envName with
  | .obj o => getKey o "awscloudformation"
  | _ => .undefined

/-- The fresh meta built at lines 26 and 29:
`{ providers: {} }` with `providers.awscloudformation` set from the
team-provider info of the current environment. -/
def baseMetaOf (env : Env) : Obj :=
  [("providers", Val.obj [("awscloudformation", tpiProviderMeta env)])]

/-- The configuration-merge step (lines 33 to 37). When `restoreBackend` is
set, nothing is merged or persisted and the state-manager meta is untouched;
otherwise backend config is merged into the fresh meta, the hard-coded
(hosting, ElasticContainer) parameter merge is applied, and the result is
persisted via `setMeta`. Returns the `amplifyMeta` used downstream together
with the meta the state manager now holds. -/
def mergeStep (env : Env) (base : Obj) : List Event × Except JsErr (Obj × Obj) :=
  if env.restoreBackend then ([], .ok (base, env.initialMetaStore))
  else
    match mergeCategoryEnvParamsIntoAmplifyMeta env.envParamManager
        (mergeBackendConfigIntoAmplifyMeta base env.backendConfig)
        "hosting" "ElasticContainer" with
    | .error e =>
      ([.mergeBackendConfig, .mergeEnvParams "hosting" "ElasticContainer"], .error e)
    | .ok m2 =>
      ([.mergeBackendConfig, .mergeEnvParams "hosting" "ElasticContainer", .setMeta m2],
        .ok (m2, m2))

/-- One category plugin resolution (lines 45 to 60): when the loaded module
exposes `initEnv`, the queued task invokes `initEnv(context)` (no provider
metadata, so the second parameter is `undefined`). -/
def catPluginTask (m : PluginModule) (location : String) : Option HookTask :=
  m.initEnvHook.map (fun f => ⟨[.categoryInitEnv location], f .undefined⟩)

/-- Resolution of the plugin list of one category (the inner loop at
line 62): each location is imported in order; a load failure raises the
category `PluginNotLoadedFault`; modules without the hook contribute no
task. -/
def resolveCategoryPlugins (mods : String → LoadResult) (category : String) :
    List String → Except JsErr (List HookTask)
  | [] => .ok []
  | loc :: rest =>
    match mods loc with
    | .failed e =>
      .error (.fault "PluginNotLoadedFault"
        ("Could not load plugin for category " ++ category ++ ".") e)
    | .loaded m =>
      match resolveCategoryPlugins mods category rest with
      | .error e => .error e
      | .ok ts => .ok ((catPluginTask m loc).toList ++ ts)

/-- Resolution of all category tasks (lines 39 to 65): only categories whose
key appears in `Object.keys(stateManager.getMeta())` are considered, in the
iteration order of the plugin-info mapping. -/
def resolveCategoryTasks (mods : String → LoadResult) :
    List (String × List String) → List String → Except JsErr (List HookTask)
  | [], _ => .ok []
  | ci :: rest, initialized =>
    if ci.1 ∈ initialized then
      match resolveCategoryPlugins mods ci.1 ci.2 with
      | .error e => .error e
      | .ok ts =>
        match resolveCategoryTasks mods rest initialized with
        | .error e => .error e
        | .ok ts2 => .ok (ts ++ ts2)
    else resolveCategoryTasks mods rest initialized

/-- The read `amplifyMeta.providers[provider]` as evaluated inside the queued closure
at line 75: reading a property of `undefined` raises a `TypeError`, reading
one of a primitive yields `undefined`. -/
def providersFieldExc (meta : Obj) (provider : String) : Except JsErr Val :=
  match getKey meta "providers" with
  | .obj o => .ok (getKey o provider)
  | .undefined => .error (.typeError "Cannot read properties of undefined")
  | .atom _ => .ok .undefined

/-- The queued provider-initialization task (line 75): evaluate
`amplifyMeta.providers[provider]`, then call
`providerModule.initEnv(context, providerMeta)`; a module without `initEnv`
raises a `TypeError` when the task runs. -/
def mkProviderTask (m : PluginModule) (provider : String)
    (metaRes : Except JsErr Val) : HookTask :=
  match metaRes with
  | .error te => ⟨[], .error te⟩
  | .ok v =>
    ⟨[.providerInitEnv provider v],
      match m.initEnvHook with
      | some f => f v
      | none => .error (.typeError "providerModule.initEnv is not a function")⟩

/-- Resolution of the provider tasks (lines 72 to 84): every provider in the
project configuration must load; the first load failure raises the provider
`PluginNotLoadedFault`. -/
def resolveProviderTasks (mods : String → LoadResult) (plugins : String → String)
    (meta : Obj) : List String → Except JsErr (List HookTask)
  | [] => .ok []
  | p :: ps =>
    match mods (plugins p) with
    | .failed e =>
      .error (.fault "PluginNotLoadedFault"
        ("Could not load plugin for provider " ++ p ++ ".") e)
    | .loaded m =>
      match resolveProviderTasks mods plugins meta ps with
      | .error e => .error e
      | .ok ts => .ok (mkProviderTask m p (providersFieldExc meta p) :: ts)

/-- The queued push task (line 136):
`providerModule.pushResources(context, resourceDefinition)`. -/
def mkPushTask (m : PluginModule) (provider : String) (rdef : Val) : HookTask :=
  ⟨[.pushResources provider rdef],
    match m.pushResourcesHook with
    | some f => f rdef
    | none => .error (.typeError "providerModule.pushResources is not a function")⟩

/-- Resolution of the push tasks (lines 132 to 137): re-import each provider
module (a load failure here propagates raw) and queue `pushResources` with
the resource-status definition fetched for that provider. -/
def resolvePushTasks (mods : String → LoadResult) (plugins : String → String)
    (rstatus : String → Val) : List String → Except JsErr (List HookTask)
  | [] => .ok []
  | p :: ps =>
    match mods (plugins p) with
    | .failed e => .error e
    | .loaded m =>
      match resolvePushTasks mods plugins rstatus ps with
      | .error e => .error e
      | .ok ts => .ok (mkPushTask m p (rstatus p) :: ts)

/-- The provider-initialization `ProjectInitFault` (lines 94 to 98). -/
def wrapPlatformFault (env : Env) (e : JsErr) : JsErr :=
  .fault "ProjectInitFault"
    ("Could not initialize platform for " ++ squote ++ env.envName ++ squote
      ++ ": " ++ e.message) e

/-- The category-initialization `ProjectInitFault` (lines 116 to 120). -/
def wrapCategoriesFault (env : Env) (e : JsErr) : JsErr :=
  .fault "ProjectInitFault"
    ("Could not initialize categories for " ++ squote ++ env.envName ++ squote
      ++ ": " ++ e.message) e

/-- Step 8 and 9 (lines 143 to 145): invoke the category-outputs-changed
hook, then print the success line. -/
def outputsStep (env : Env) : List Event × Except JsErr Unit :=
  match env.outputsResult with
  | .error e => ([.outputsChanged], .error e)
  | .ok _ => ([.outputsChanged, .printSuccess env.isPulling], .ok ())

/-- The push phase (lines 131 to 140): resolve the push tasks, run them
sequentially with no wrapping of failures, then continue to the outputs
step. -/
def pushStep (env : Env) : List Event × Except JsErr Unit :=
  match resolvePushTasks env.modules env.providerPlugins env.resourceStatus
      env.providers with
  | .error e => ([], .error e)
  | .ok ts =>
    match (sequential ts).2 with
    | .error e => ((sequential ts).1, .error e)
    | .ok _ => ((sequential ts).1 ++ (outputsStep env).1, (outputsStep env).2)

/-- The push decision (lines 125 to 129): the pre-set `forcePush` flag wins;
otherwise the confirmation prompt is consulted. -/
def promptStep (env : Env) : List Event × Bool :=
  match env.forcePush with
  | some b => ([], b)
  | none => ([.confirmPrompt], env.confirmAnswer)

/-- Steps 6 to 9: decide on push, then either push and regenerate outputs or
regenerate outputs directly. -/
def pushDecisionStep (env : Env) : List Event × Except JsErr Unit :=
  if (promptStep env).2 then
    ((promptStep env).1 ++ (pushStep env).1, (pushStep env).2)
  else
    ((promptStep env).1 ++ (outputsStep env).1, (outputsStep env).2)

/-- The category-initialization phase (lines 112 to 123): timed sequential
run of the category tasks; a failure is wrapped into the categories
`ProjectInitFault` and ends the run. -/
def categoryPhase (env : Env) (categoryTasks : List HookTask) :
    List Event × Except JsErr Unit :=
  match (sequential categoryTasks).2 with
  | .error e =>
    ([.timerStart .initEnvCategories] ++ (sequential categoryTasks).1
      ++ [.timerStop .initEnvCategories], .error (wrapCategoriesFault env e))
  | .ok _ =>
    ([.timerStart .initEnvCategories] ++ (sequential categoryTasks).1
      ++ [.timerStop .initEnvCategories] ++ (pushDecisionStep env).1,
      (pushDecisionStep env).2)

/-- The provider-initialization phase (lines 86 to 110): spinner start, timed
sequential run of the provider tasks (a failure is wrapped into the platform
`ProjectInitFault` and ends the run), spinner success, project-details
refresh, then the category phase. -/
def providerPhase (env : Env) (providerTasks categoryTasks : List HookTask) :
    List Event × Except JsErr Unit :=
  match (sequential providerTasks).2 with
  | .error e =>
    ([.spinnerStart env.isPulling, .timerStart .initEnvPlatform]
      ++ (sequential providerTasks).1 ++ [.timerStop .initEnvPlatform],
      .error (wrapPlatformFault env e))
  | .ok _ =>
    ([.spinnerStart env.isPulling, .timerStart .initEnvPlatform]
      ++ (sequential providerTasks).1
      ++ [.timerStop .initEnvPlatform, .spinnerSucceed env.isPulling,
          .projectDetails]
      ++ (categoryPhase env categoryTasks).1,
      (categoryPhase env categoryTasks).2)

/-- The body of the top-level `try` block of `initializeEnv` (lines 23 to
145): merge, resolve category tasks against the keys of the state-manager
meta, resolve provider tasks, then run the phases. -/
def initializeEnvCore (env : Env) : List Event × Except JsErr Unit :=
  match mergeStep env (baseMetaOf env) with
  | (evs, .error e) => (evs, .error e)
  | (evs, .ok (amplifyMeta, metaStore)) =>
    match resolveCategoryTasks env.modules env.categoryPluginInfo
        (metaStore.map Prod.fst) with
    | .error e => (evs, .error e)
    | .ok categoryTasks =>
      match resolveProviderTasks env.modules env.providerPlugins amplifyMeta
          env.providers with
      | .error e => (evs, .error e)
      | .ok providerTasks =>
        (evs ++ (providerPhase env providerTasks categoryTasks).1,
          (providerPhase env providerTasks categoryTasks).2)

/-- The function `initializeEnv` (lines 16 to 151): the whole run, with the top-level
`catch` (lines 146 to 150) that fails the spinner once and re-raises the
original error unchanged. -/
def initializeEnv (env : Env) : List Event × Except JsErr Unit :=
  match (initializeEnvCore env).2 with
  | .ok _ => ((initializeEnvCore env).1, .ok ())
  | .error e => ((initializeEnvCore env).1 ++ [.spinnerFail], .error e)

/-- Whether an event is a hook-task invocation. -/
def Event.isTaskEv : Event → Bool
  | .providerInitEnv _ _ => true
  | .categoryInitEnv _ => true
  | .pushResources _ _ => true
  | _ => false

/-- Whether an event is one of the fixed collaborator notifications emitted
by the phases after the merge step (spinner, timers, project details,
prompt, outputs hook, success print). -/
def Event.isLiteralEv : Event → Bool
  | .spinnerStart _ => true
  | .spinnerSucceed _ => true
  | .timerStart _ => true
  | .timerStop _ => true
  | .projectDetails => true
  | .confirmPrompt => true
  | .outputsChanged => true
  | .printSuccess _ => true
  | _ => false

/-- Whether an event is the spinner failure notification. -/
def Event.isSpinnerFailEv : Event → Bool
  | .spinnerFail => true
  | _ => false

/-- Whether an event is the category-outputs-changed hook invocation. -/
def Event.isOutputsEv : Event → Bool
  | .outputsChanged => true
  | _ => false

/-- Whether an event is a category `initEnv` invocation. -/
def Event.isCategoryInitEv : Event → Bool
  | .categoryInitEnv _ => true
  | _ => false

/-- Whether an event is a `pushResources` invocation. -/
def Event.isPushEv : Event → Bool
  | .pushResources _ _ => true
  | _ => false

/-- Whether an event is a provider `initEnv` invocation. -/
def Event.isProviderInitEv : Event → Bool
  | .providerInitEnv _ _ => true
  | _ => false

/-- Whether an event is a call into the backend-config merge or the
environment-parameter merge. -/
def Event.isMergeCallEv : Event → Bool
  | .mergeBackendConfig => true
  | .mergeEnvParams _ _ => true
  | _ => false

/-- Whether an event is a `setMeta` persistence call. -/
def Event.isSetMetaEv : Event → Bool
  | .setMeta _ => true
  | _ => false

/-- The category task list described by the spec: one task per plugin, in
iteration order, for plugins of initialized categories whose module exposes
`initEnv`. -/
def expectedCategoryTasks (mods : String → LoadResult)
    (info : List (String × List String)) (initialized : List String) :
    List HookTask :=
  info.flatMap (fun ci =>
    if ci.1 ∈ initialized then
      ci.2.filterMap (fun loc =>
        match mods loc with
        | .loaded m => catPluginTask m loc
        | .failed _ => none)
    else [])

/-- Provenance of an event of the phases after the merge step: it was
emitted by a provider task, a category task, a push task or one of the fixed
collaborator notifications. -/
def TailEvent (env : Env) (pt ct : List HookTask) (ev : Event) : Prop :=
  (∃ t ∈ pt, ev ∈ t.events) ∨ (∃ t ∈ ct, ev ∈ t.events) ∨
  (∃ ts, resolvePushTasks env.modules env.providerPlugins env.resourceStatus
      env.providers = .ok ts ∧ ∃ t ∈ ts, ev ∈ t.events) ∨
  ev.isLiteralEv = true

/-- A plugin module whose `initEnv` succeeds and whose `pushResources`
succeeds. -/
def modInitOk : PluginModule :=
  ⟨some (fun _ => .ok ()), some (fun _ => .ok ())⟩

/-- A plugin module that exposes neither hook. -/
def modNoHooks : PluginModule := ⟨none, none⟩

/-- A plugin module whose `initEnv` succeeds and whose `pushResources`
fails. -/
def modPushFail : PluginModule :=
  ⟨some (fun _ => .ok ()), some (fun _ => .error (.error "push boom"))⟩

/-- A plugin module whose `initEnv` fails. -/
def modInitFail : PluginModule :=
  ⟨some (fun _ => .error (.error "init boom")), none⟩

/-- A baseline happy-path environment: one initialized category with one
plugin, one provider, push pre-confirmed, each hook succeeding except
`pushResources`. -/
def envC3 : Env where
  envName := "dev"
  isPulling := false
  restoreBackend := false
  teamProviderInfo := [("dev", .obj [("awscloudformation", .atom "tpi")])]
  backendConfig := [("hosting", .obj [("ElasticContainer", .obj [("size", .atom "1")])])]
  envParamManager := ⟨[]⟩
  initialMetaStore := []
  categoryPluginInfo := [("hosting", ["hplug"])]
  modules := fun loc =>
    if loc = "hplug" then .loaded modInitOk
    else if loc = "aplug" then .loaded modPushFail
    else .failed (.error "MODULE_NOT_FOUND")
  providers := ["awscloudformation"]
  providerPlugins := fun _ => "aplug"
  forcePush := some true
  confirmAnswer := false
  resourceStatus := fun _ => .atom "rdef"
  outputsResult := .ok ()

/-- The meta produced by the merge step of `envC3`. -/
def mC3 : Obj :=
  [("providers", .obj [("awscloudformation", .atom "tpi")]),
   ("hosting", .obj [("ElasticContainer", .obj [("size", .atom "1")])])]

/-- The merge-step events of `envC3`. -/
def evs0C3 : List Event :=
  [.mergeBackendConfig, .mergeEnvParams "hosting" "ElasticContainer", .setMeta mC3]

/-- The resolved category tasks of `envC3`. -/
def ctC3 : List HookTask := [⟨[.categoryInitEnv "hplug"], .ok ()⟩]

/-- The resolved provider tasks of `envC3`. -/
def ptC3 : List HookTask :=
  [⟨[.providerInitEnv "awscloudformation" (.atom "tpi")], .ok ()⟩]

/-- The resolved push tasks of `envC3`. -/
def putC3 : List HookTask :=
  [⟨[.pushResources "awscloudformation" (.atom "rdef")],
    .error (.error "push boom")⟩]

/-- An environment whose only provider plugin fails to load, so the run
fails. -/
def envC4 : Env where
  envName := "dev"
  isPulling := false
  restoreBackend := true
  teamProviderInfo := []
  backendConfig := []
  envParamManager := ⟨[]⟩
  initialMetaStore := []
  categoryPluginInfo := []
  modules := fun _ => .failed (.error "MODULE_NOT_FOUND")
  providers := ["awscloudformation"]
  providerPlugins := fun _ => "aplug"
  forcePush := some false
  confirmAnswer := false
  resourceStatus := fun _ => .undefined
  outputsResult := .ok ()

/-- The environment `envC3` with a succeeding push. -/
def envC9 : Env :=
  { envC3 with modules := fun loc =>
      if loc = "hplug" then .loaded modInitOk
      else if loc = "aplug" then .loaded modInitOk
      else .failed (.error "MODULE_NOT_FOUND") }

/-- The environment `envC9` with push declined instead of pre-confirmed. -/
def envC9b : Env := { envC9 with forcePush := none, confirmAnswer := false }

/-- A parameter manager recording one override for (hosting,
ElasticContainer). -/
def epmC2 : EnvParamManager :=
  ⟨[(("hosting", "ElasticContainer"), ⟨[("k", .atom "v")]⟩)]⟩

/-- A meta with a backend-config entry for (hosting, ElasticContainer) and
an unrelated second key. -/
def metaC2 : Obj :=
  [("hosting", .obj [("ElasticContainer",
      .obj [("k", .atom "old"), ("size", .atom "1")])]),
   ("auth", .obj [("svc", .atom "a")])]

/-- Plugin registry for the C7 witness: `a1` exposes `initEnv`, `a2` loads
without a hook, `s1` does not load at all. -/
def modsC7 : String → LoadResult := fun loc =>
  if loc = "a1" then .loaded modInitOk
  else if loc = "a2" then .loaded modNoHooks
  else .failed (.error "MODULE_NOT_FOUND")

/-- A plugin module whose `initEnv` fails with the category error. -/
def modCatFail : PluginModule :=
  ⟨some (fun _ => .error (.error "cat boom")), none⟩

/-- The environment `envC3` with a provider whose `initEnv` fails. -/
def envC5a : Env :=
  { envC3 with modules := fun loc =>
      if loc = "hplug" then .loaded modInitOk
      else if loc = "aplug" then .loaded modInitFail
      else .failed (.error "MODULE_NOT_FOUND") }

/-- The environment `envC3` with a category plugin whose `initEnv` fails. -/
def envC5b : Env :=
  { envC3 with modules := fun loc =>
      if loc = "hplug" then .loaded modCatFail
      else if loc = "aplug" then .loaded modInitOk
      else .failed (.error "MODULE_NOT_FOUND") }

/-- The failing provider task list of `envC5a`. -/
def ptC5a : List HookTask :=
  [⟨[.providerInitEnv "awscloudformation" (.atom "tpi")],
    .error (.error "init boom")⟩]

/-- The failing category task list of `envC5b`. -/
def ctC5b : List HookTask :=
  [⟨[.categoryInitEnv "hplug"], .error (.error "cat boom")⟩]

/-- An environment with three providers whose second plugin fails to
load. -/
def envC6 : Env :=
  { envC3 with
      providers := ["p1", "p2", "p3"]
      providerPlugins := fun q => "m" ++ q
      modules := fun loc =>
        if loc = "hplug" then .loaded modInitOk
        else if loc = "mp1" then .loaded modInitOk
        else .failed (.error "MODULE_NOT_FOUND") }

/-- A restore-backend environment whose previously loaded meta holds a
provider entry different from the team-provider info. -/
def envC1 : Env where
  envName := "dev"
  isPulling := false
  restoreBackend := true
  teamProviderInfo := [("dev", .obj [("awscloudformation", .atom "tpi")])]
  backendConfig := []
  envParamManager := ⟨[]⟩
  initialMetaStore := [("providers", .obj [("awscloudformation", .atom "old")])]
  categoryPluginInfo := []
  modules := fun _ => .loaded modInitOk
  providers := ["awscloudformation"]
  providerPlugins := fun _ => "aplug"
  forcePush := some false
  confirmAnswer := false
  resourceStatus := fun _ => .undefined
  outputsResult := .ok ()

/-- The trace of the `envC1` run. -/
def trC1 : List Event :=
  [.spinnerStart false, .timerStart .initEnvPlatform,
   .providerInitEnv "awscloudformation" (.atom "tpi"),
   .timerStop .initEnvPlatform, .spinnerSucceed false, .projectDetails,
   .timerStart .initEnvCategories, .timerStop .initEnvCategories,
   .outputsChanged, .printSuccess false]

/-- Agreement of two parameter managers at one (category, service) pair, as
far as the merge step can observe them. -/
def agreeAt (a b : EnvParamManager) (c s : String) : Prop :=
  a.hasResourceParamManager c s = b.hasResourceParamManager c s ∧
  a.getResourceParamManager c s = b.getResourceParamManager c s

/-- A parameter manager recording overrides only for a pair other than
(hosting, ElasticContainer). -/
def epmOther : EnvParamManager :=
  ⟨[(("auth", "Cognito"), ⟨[("x", .atom "1")]⟩)]⟩

/-- The merge result of `epmC2` on `metaC2`. -/
def resC10 : Obj :=
  [("hosting", .obj [("ElasticContainer",
      .obj [("k", .atom "v"), ("size", .atom "1")])]),
   ("auth", .obj [("svc", .atom "a")])]

/-- The trace of the `envC3` run. -/
def trC3 : List Event :=
  [.mergeBackendConfig, .mergeEnvParams "hosting" "ElasticContainer",
   .setMeta mC3, .spinnerStart false, .timerStart .initEnvPlatform,
   .providerInitEnv "awscloudformation" (.atom "tpi"),
   .timerStop .initEnvPlatform, .spinnerSucceed false, .projectDetails,
   .timerStart .initEnvCategories, .categoryInitEnv "hplug",
   .timerStop .initEnvCategories,
   .pushResources "awscloudformation" (.atom "rdef"), .spinnerFail]

theorem getKey_cons (p : String × Val) (rest : Obj) (k : String) :
    getKey (p :: rest) k = if p.1 = k then p.2 else getKey rest k := rfl

theorem hasKey_cons (p : String × Val) (rest : Obj) (k : String) :
    hasKey (p :: rest) k = (decide (p.1 = k) || hasKey rest k) := rfl

theorem objAssign_cons (t : Obj) (p : String × Val) (rest : Obj) :
    objAssign t (p :: rest) = objAssign (setKey t p.1 p.2) rest := rfl

theorem hasKey_iff_mem_keys (o : Obj) (k : String) :
    hasKey o k = true ↔ k ∈ o.map Prod.fst := by
  induction o with
  | nil => simp [hasKey]
  | cons p rest ih =>
    rw [hasKey_cons]
    simp only [Bool.or_eq_true, decide_eq_true_eq, List.map_cons, List.mem_cons]
    rw [ih]
    exact or_congr eq_comm Iff.rfl

theorem hasKey_eq_false_iff (o : Obj) (k : String) :
    hasKey o k = false ↔ k ∉ o.map Prod.fst := by
  constructor
  · intro h hmem
    rw [← hasKey_iff_mem_keys] at hmem
    rw [h] at hmem
    exact Bool.false_ne_true hmem
  · intro h
    cases hcase : hasKey o k with
    | false => rfl
    | true => exact absurd ((hasKey_iff_mem_keys o k).mp hcase) h

theorem getKey_map_set_of_hasKey (o : Obj) (k : String) (v : Val)
    (h : hasKey o k = true) :
    getKey (o.map (fun p => if p.1 = k then (k, v) else p)) k = v := by
  induction o with
  | nil => simp [hasKey] at h
  | cons p rest ih =>
    simp only [List.map_cons]
    by_cases hpk : p.1 = k
    · rw [if_pos hpk, getKey_cons, if_pos rfl]
    · rw [if_neg hpk, getKey_cons, if_neg hpk]
      rw [hasKey_cons] at h
      have hrest : hasKey rest k = true := by
        simpa [hpk] using h
      exact ih hrest

theorem getKey_map_set_of_ne (o : Obj) (k k2 : String) (v : Val) (h : k2 ≠ k) :
    getKey (o.map (fun p => if p.1 = k then (k, v) else p)) k2 = getKey o k2 := by
  induction o with
  | nil => rfl
  | cons p rest ih =>
    simp only [List.map_cons]
    by_cases hpk : p.1 = k
    · rw [if_pos hpk, getKey_cons, getKey_cons]
      have hne1 : ¬(k = k2) := fun hh => h hh.symm
      have hne2 : ¬(p.1 = k2) := by rw [hpk]; exact hne1
      rw [if_neg hne1, if_neg hne2]
      exact ih
    · rw [if_neg hpk, getKey_cons, getKey_cons]
      by_cases hp2 : p.1 = k2
      · rw [if_pos hp2, if_pos hp2]
      · rw [if_neg hp2, if_neg hp2]
        exact ih

theorem getKey_append_right (o l : Obj) (k : String) (h : hasKey o k = false) :
    getKey (o ++ l) k = getKey l k := by
  induction o with
  | nil => rfl
  | cons p rest ih =>
    rw [hasKey_cons, Bool.or_eq_false_iff] at h
    have hpk : ¬(p.1 = k) := by simpa using h.1
    show (if p.1 = k then p.2 else getKey (rest ++ l) k) = getKey l k
    rw [if_neg hpk]
    exact ih h.2

theorem getKey_append_single_of_ne (o : Obj) (k k2 : String) (v : Val)
    (h : k2 ≠ k) : getKey (o ++ [(k, v)]) k2 = getKey o k2 := by
  induction o with
  | nil =>
    show (if k = k2 then v else Val.undefined) = Val.undefined
    rw [if_neg (fun hh => h hh.symm)]
  | cons p rest ih =>
    show (if p.1 = k2 then p.2 else getKey (rest ++ [(k, v)]) k2)
        = if p.1 = k2 then p.2 else getKey rest k2
    by_cases hp2 : p.1 = k2
    · rw [if_pos hp2, if_pos hp2]
    · rw [if_neg hp2, if_neg hp2]
      exact ih

theorem getKey_setKey_self (o : Obj) (k : String) (v : Val) :
    getKey (setKey o k v) k = v := by
  unfold setKey
  by_cases hk : hasKey o k
  · rw [if_pos hk]
    exact getKey_map_set_of_hasKey o k v hk
  · rw [if_neg hk]
    rw [getKey_append_right o [(k, v)] k (by simpa using hk)]
    rw [getKey_cons, if_pos rfl]

theorem getKey_setKey_of_ne (o : Obj) (k k2 : String) (v : Val)
    (h : k2 ≠ k) : getKey (setKey o k v) k2 = getKey o k2 := by
  unfold setKey
  by_cases hk : hasKey o k
  · rw [if_pos hk]
    exact getKey_map_set_of_ne o k k2 v h
  · rw [if_neg hk]
    exact getKey_append_single_of_ne o k k2 v h

theorem getKey_objAssign_of_hasKey_eq_false (t s : Obj) (k : String) :
    hasKey s k = false → getKey (objAssign t s) k = getKey t k := by
  induction s generalizing t with
  | nil => intro _; rfl
  | cons p rest ih =>
    intro h
    rw [hasKey_cons, Bool.or_eq_false_iff] at h
    rw [objAssign_cons, ih (setKey t p.1 p.2) h.2]
    exact getKey_setKey_of_ne t p.1 k p.2 (Ne.symm (by simpa using h.1))

theorem getKey_objAssign_of_mem (t s : Obj) (k : String) (v : Val) :
    (s.map Prod.fst).Nodup → (k, v) ∈ s → getKey (objAssign t s) k = v := by
  induction s generalizing t with
  | nil =>
    intro _ hmem
    simp at hmem
  | cons p rest ih =>
    intro hnd hmem
    simp only [List.map_cons, List.nodup_cons] at hnd
    rw [objAssign_cons]
    rcases List.mem_cons.mp hmem with hhead | htail
    · obtain rfl : p = (k, v) := hhead.symm
      rw [getKey_objAssign_of_hasKey_eq_false (setKey t k v) rest k
        ((hasKey_eq_false_iff rest k).mpr hnd.1)]
      exact getKey_setKey_self t k v
    · exact ih (setKey t p.1 p.2) hnd.2 htail

theorem sequential_nil : sequential [] = ([], .ok ()) := rfl

theorem sequential_cons_ok (t : HookTask) (ts : List HookTask)
    (h : t.result = .ok ()) :
    sequential (t :: ts) = (t.events ++ (sequential ts).1, (sequential ts).2) := by
  simp [sequential, h]

theorem sequential_cons_error (t : HookTask) (ts : List HookTask) (e : JsErr)
    (h : t.result = .error e) :
    sequential (t :: ts) = (t.events, .error e) := by
  simp [sequential, h]

theorem sequential_all_ok (ts : List HookTask)
    (h : ∀ t ∈ ts, t.result = .ok ()) :
    sequential ts = (ts.flatMap HookTask.events, .ok ()) := by
  induction ts with
  | nil => rfl
  | cons t ts ih =>
    rw [sequential_cons_ok t ts (h t (List.mem_cons_self t ts)),
      ih (fun x hx => h x (List.mem_cons_of_mem t hx))]
    simp

theorem sequential_first_error (ts1 : List HookTask) (t : HookTask)
    (ts2 : List HookTask) (e : JsErr)
    (h1 : ∀ x ∈ ts1, x.result = .ok ()) (h2 : t.result = .error e) :
    sequential (ts1 ++ t :: ts2)
      = (ts1.flatMap HookTask.events ++ t.events, .error e) := by
  induction ts1 with
  | nil => simpa using sequential_cons_error t ts2 e h2
  | cons x xs ih =>
    rw [List.cons_append, sequential_cons_ok x _ (h1 x (List.mem_cons_self x xs)),
      ih (fun y hy => h1 y (List.mem_cons_of_mem x hy))]
    simp

theorem sequential_mem_events (ts : List HookTask) (ev : Event) :
    ev ∈ (sequential ts).1 → ∃ t ∈ ts, ev ∈ t.events := by
  induction ts with
  | nil =>
    intro h
    rw [sequential_nil] at h
    exact absurd h (List.not_mem_nil ev)
  | cons t ts ih =>
    intro h
    cases hres : t.result with
    | error e =>
      rw [sequential_cons_error t ts e hres] at h
      exact ⟨t, List.mem_cons_self t ts, h⟩
    | ok u =>
      cases u
      rw [sequential_cons_ok t ts hres] at h
      rcases List.mem_append.mp h with h1 | h2
      · exact ⟨t, List.mem_cons_self t ts, h1⟩
      · obtain ⟨x, hx, hev⟩ := ih h2
        exact ⟨x, List.mem_cons_of_mem t hx, hev⟩

theorem sequential_countP_zero (p : Event → Bool) (ts : List HookTask)
    (h : ∀ t ∈ ts, ∀ ev ∈ t.events, p ev = false) :
    (sequential ts).1.countP p = 0 := by
  rw [List.countP_eq_zero]
  intro ev hev
  obtain ⟨t, ht, hev2⟩ := sequential_mem_events ts ev hev
  simp [h t ht ev hev2]

theorem resolveCategoryPlugins_tasks (mods : String → LoadResult) (c : String)
    (locs : List String) (ts : List HookTask)
    (h : resolveCategoryPlugins mods c locs = .ok ts) :
    ∀ t ∈ ts, ∃ loc, t.events = [Event.categoryInitEnv loc] := by
  induction locs generalizing ts with
  | nil =>
    simp only [resolveCategoryPlugins] at h
    cases h
    intro t ht
    simp at ht
  | cons loc rest ih =>
    simp only [resolveCategoryPlugins] at h
    cases hm : mods loc with
    | failed e => rw [hm] at h; cases h
    | loaded m =>
      rw [hm] at h
      cases hr : resolveCategoryPlugins mods c rest with
      | error e => rw [hr] at h; cases h
      | ok ts2 =>
        rw [hr] at h
        cases h
        intro t ht
        rcases List.mem_append.mp ht with h1 | h2
        · cases hcp : m.initEnvHook with
          | none => rw [catPluginTask, hcp] at h1; simp at h1
          | some f =>
            rw [catPluginTask, hcp] at h1
            simp at h1
            subst h1
            exact ⟨loc, rfl⟩
        · exact ih ts2 hr t h2

theorem resolveCategoryTasks_tasks (mods : String → LoadResult)
    (info : List (String × List String)) (initialized : List String)
    (ts : List HookTask)
    (h : resolveCategoryTasks mods info initialized = .ok ts) :
    ∀ t ∈ ts, ∃ loc, t.events = [Event.categoryInitEnv loc] := by
  induction info generalizing ts with
  | nil =>
    simp only [resolveCategoryTasks] at h
    cases h
    intro t ht
    simp at ht
  | cons ci rest ih =>
    simp only [resolveCategoryTasks] at h
    by_cases hmem : ci.1 ∈ initialized
    · rw [if_pos hmem] at h
      cases hp : resolveCategoryPlugins mods ci.1 ci.2 with
      | error e => rw [hp] at h; cases h
      | ok ts1 =>
        rw [hp] at h
        cases hr : resolveCategoryTasks mods rest initialized with
        | error e => rw [hr] at h; cases h
        | ok ts2 =>
          rw [hr] at h
          cases h
          intro t ht
          rcases List.mem_append.mp ht with h1 | h2
          · exact resolveCategoryPlugins_tasks mods ci.1 ci.2 ts1 hp t h1
          · exact ih ts2 hr t h2
    · rw [if_neg hmem] at h
      exact ih ts h

theorem resolveProviderTasks_tasks (mods : String → LoadResult)
    (plugins : String → String) (meta : Obj) (ps : List String)
    (ts : List HookTask)
    (h : resolveProviderTasks mods plugins meta ps = .ok ts) :
    ∀ t ∈ ts, t.events = [] ∨ ∃ p v, p ∈ ps ∧ providersFieldExc meta p = .ok v
      ∧ t.events = [Event.providerInitEnv p v] := by
  induction ps generalizing ts with
  | nil =>
    simp only [resolveProviderTasks] at h
    cases h
    intro t ht
    simp at ht
  | cons p rest ih =>
    simp only [resolveProviderTasks] at h
    cases hm : mods (plugins p) with
    | failed e => rw [hm] at h; cases h
    | loaded m =>
      rw [hm] at h
      cases hr : resolveProviderTasks mods plugins meta rest with
      | error e => rw [hr] at h; cases h
      | ok ts2 =>
        rw [hr] at h
        cases h
        intro t ht
        rcases List.mem_cons.mp ht with h1 | h2
        · subst h1
          cases hf : providersFieldExc meta p with
          | error te => left; rfl
          | ok v =>
            right
            exact ⟨p, v, List.mem_cons_self p rest, hf, rfl⟩
        · rcases ih ts2 hr t h2 with h3 | ⟨q, v, hq, hfv, hev⟩
          · exact Or.inl h3
          · exact Or.inr ⟨q, v, List.mem_cons_of_mem p hq, hfv, hev⟩

theorem resolvePushTasks_tasks (mods : String → LoadResult)
    (plugins : String → String) (rstatus : String → Val) (ps : List String)
    (ts : List HookTask)
    (h : resolvePushTasks mods plugins rstatus ps = .ok ts) :
    ∀ t ∈ ts, ∃ p, p ∈ ps ∧ t.events = [Event.pushResources p (rstatus p)] := by
  induction ps generalizing ts with
  | nil =>
    simp only [resolvePushTasks] at h
    cases h
    intro t ht
    simp at ht
  | cons p rest ih =>
    simp only [resolvePushTasks] at h
    cases hm : mods (plugins p) with
    | failed e => rw [hm] at h; cases h
    | loaded m =>
      rw [hm] at h
      cases hr : resolvePushTasks mods plugins rstatus rest with
      | error e => rw [hr] at h; cases h
      | ok ts2 =>
        rw [hr] at h
        cases h
        intro t ht
        rcases List.mem_cons.mp ht with h1 | h2
        · subst h1
          exact ⟨p, List.mem_cons_self p rest, rfl⟩
        · obtain ⟨q, hq, hev⟩ := ih ts2 hr t h2
          exact ⟨q, List.mem_cons_of_mem p hq, hev⟩

theorem resolveProviderTasks_first_failure (mods : String → LoadResult)
    (plugins : String → String) (meta : Obj) (ps1 : List String) (p : String)
    (ps2 : List String) (e : JsErr)
    (hok : ∀ q ∈ ps1, ∃ m, mods (plugins q) = .loaded m)
    (hf : mods (plugins p) = .failed e) :
    resolveProviderTasks mods plugins meta (ps1 ++ p :: ps2)
      = .error (.fault "PluginNotLoadedFault"
          ("Could not load plugin for provider " ++ p ++ ".") e) := by
  induction ps1 with
  | nil => simp [resolveProviderTasks, hf]
  | cons q qs ih =>
    obtain ⟨m, hm⟩ := hok q (List.mem_cons_self q qs)
    rw [List.cons_append]
    simp only [resolveProviderTasks, hm]
    rw [ih (fun y hy => hok y (List.mem_cons_of_mem q hy))]

theorem resolveCategoryPlugins_complete (mods : String → LoadResult)
    (c : String) (locs : List String)
    (h : ∀ loc ∈ locs, ∃ m, mods loc = .loaded m) :
    resolveCategoryPlugins mods c locs = .ok (locs.filterMap (fun loc =>
      match mods loc with
      | .loaded m => catPluginTask m loc
      | .failed _ => none)) := by
  induction locs with
  | nil => rfl
  | cons loc rest ih =>
    obtain ⟨m, hm⟩ := h loc (List.mem_cons_self loc rest)
    have ihr := ih (fun y hy => h y (List.mem_cons_of_mem loc hy))
    simp only [resolveCategoryPlugins, hm, ihr, List.filterMap_cons]
    cases hcp : catPluginTask m loc with
    | none => simp [hcp]
    | some t => simp [hcp]

theorem resolveCategoryTasks_complete (mods : String → LoadResult)
    (info : List (String × List String)) (initialized : List String)
    (h : ∀ ci ∈ info, ci.1 ∈ initialized → ∀ loc ∈ ci.2, ∃ m, mods loc = .loaded m) :
    resolveCategoryTasks mods info initialized
      = .ok (expectedCategoryTasks mods info initialized) := by
  induction info with
  | nil => rfl
  | cons ci rest ih =>
    have ihr := ih (fun y hy => h y (List.mem_cons_of_mem ci hy))
    by_cases hmem : ci.1 ∈ initialized
    · have hp := resolveCategoryPlugins_complete mods ci.1 ci.2
        (h ci (List.mem_cons_self ci rest) hmem)
      simp only [resolveCategoryTasks, hmem, if_true, hp, ihr,
        expectedCategoryTasks, List.flatMap_cons]
    · simp only [resolveCategoryTasks, hmem, if_false, ihr,
        expectedCategoryTasks, List.flatMap_cons]
      simp [hmem]

theorem mergeStep_restore (env : Env) (base : Obj)
    (h : env.restoreBackend = true) :
    mergeStep env base = ([], .ok (base, env.initialMetaStore)) := by
  simp [mergeStep, h]

theorem mergeStep_events (env : Env) (base : Obj) :
    ∀ ev ∈ (mergeStep env base).1, ev = .mergeBackendConfig ∨
      ev = .mergeEnvParams "hosting" "ElasticContainer" ∨ ∃ m, ev = .setMeta m := by
  cases h : env.restoreBackend with
  | true =>
    rw [mergeStep_restore env base h]
    intro ev hev
    exact absurd hev (List.not_mem_nil ev)
  | false =>
    unfold mergeStep
    rw [h]
    simp only [Bool.false_eq_true, if_false]
    cases hm : mergeCategoryEnvParamsIntoAmplifyMeta env.envParamManager
        (mergeBackendConfigIntoAmplifyMeta base env.backendConfig)
        "hosting" "ElasticContainer" with
    | error e =>
      intro ev hev
      simp only [List.mem_cons, List.not_mem_nil, or_false] at hev
      rcases hev with rfl | rfl
      · exact Or.inl rfl
      · exact Or.inr (Or.inl rfl)
    | ok m2 =>
      intro ev hev
      simp only [List.mem_cons, List.not_mem_nil, or_false] at hev
      rcases hev with rfl | rfl | rfl
      · exact Or.inl rfl
      · exact Or.inr (Or.inl rfl)
      · exact Or.inr (Or.inr ⟨m2, rfl⟩)

theorem mergeStep_countP_zero (env : Env) (base : Obj) (p : Event → Bool)
    (h1 : p .mergeBackendConfig = false)
    (h2 : p (.mergeEnvParams "hosting" "ElasticContainer") = false)
    (h3 : ∀ m, p (.setMeta m) = false) :
    (mergeStep env base).1.countP p = 0 := by
  rw [List.countP_eq_zero]
  intro ev hev
  rcases mergeStep_events env base ev hev with rfl | rfl | ⟨m, rfl⟩ <;>
    simp [h1, h2, h3]

theorem outputsStep_error (env : Env) (e : JsErr)
    (h : env.outputsResult = .error e) :
    outputsStep env = ([.outputsChanged], .error e) := by
  simp [outputsStep, h]

theorem outputsStep_ok (env : Env) (h : env.outputsResult = .ok ()) :
    outputsStep env = ([.outputsChanged, .printSuccess env.isPulling], .ok ()) := by
  simp [outputsStep, h]

theorem pushStep_resolve_error (env : Env) (e : JsErr)
    (h : resolvePushTasks env.modules env.providerPlugins env.resourceStatus
      env.providers = .error e) :
    pushStep env = ([], .error e) := by
  simp [pushStep, h]

theorem pushStep_seq_error (env : Env) (ts : List HookTask) (e : JsErr)
    (hres : resolvePushTasks env.modules env.providerPlugins env.resourceStatus
      env.providers = .ok ts)
    (hseq : (sequential ts).2 = .error e) :
    pushStep env = ((sequential ts).1, .error e) := by
  simp [pushStep, hres, hseq]

theorem pushStep_seq_ok (env : Env) (ts : List HookTask)
    (hres : resolvePushTasks env.modules env.providerPlugins env.resourceStatus
      env.providers = .ok ts)
    (hseq : (sequential ts).2 = .ok ()) :
    pushStep env = ((sequential ts).1 ++ (outputsStep env).1, (outputsStep env).2) := by
  simp [pushStep, hres, hseq]

theorem promptStep_preset (env : Env) (b : Bool) (h : env.forcePush = some b) :
    promptStep env = ([], b) := by
  simp [promptStep, h]

theorem promptStep_prompt (env : Env) (h : env.forcePush = none) :
    promptStep env = ([.confirmPrompt], env.confirmAnswer) := by
  simp [promptStep, h]

theorem pushDecisionStep_force (env : Env) (h : (promptStep env).2 = true) :
    pushDecisionStep env
      = ((promptStep env).1 ++ (pushStep env).1, (pushStep env).2) := by
  simp [pushDecisionStep, h]

theorem pushDecisionStep_noforce (env : Env) (h : (promptStep env).2 = false) :
    pushDecisionStep env
      = ((promptStep env).1 ++ (outputsStep env).1, (outputsStep env).2) := by
  simp [pushDecisionStep, h]

theorem categoryPhase_seq_error (env : Env) (ct : List HookTask) (e : JsErr)
    (h : (sequential ct).2 = .error e) :
    categoryPhase env ct = ([.timerStart .initEnvCategories]
      ++ (sequential ct).1 ++ [.timerStop .initEnvCategories],
      .error (wrapCategoriesFault env e)) := by
  simp [categoryPhase, h]

theorem categoryPhase_seq_ok (env : Env) (ct : List HookTask)
    (h : (sequential ct).2 = .ok ()) :
    categoryPhase env ct = ([.timerStart .initEnvCategories]
      ++ (sequential ct).1 ++ [.timerStop .initEnvCategories]
      ++ (pushDecisionStep env).1, (pushDecisionStep env).2) := by
  simp [categoryPhase, h]

theorem providerPhase_seq_error (env : Env) (pt ct : List HookTask) (e : JsErr)
    (h : (sequential pt).2 = .error e) :
    providerPhase env pt ct = ([.spinnerStart env.isPulling,
      .timerStart .initEnvPlatform] ++ (sequential pt).1
      ++ [.timerStop .initEnvPlatform], .error (wrapPlatformFault env e)) := by
  simp [providerPhase, h]

theorem providerPhase_seq_ok (env : Env) (pt ct : List HookTask)
    (h : (sequential pt).2 = .ok ()) :
    providerPhase env pt ct = ([.spinnerStart env.isPulling,
      .timerStart .initEnvPlatform] ++ (sequential pt).1
      ++ [.timerStop .initEnvPlatform, .spinnerSucceed env.isPulling,
          .projectDetails]
      ++ (categoryPhase env ct).1, (categoryPhase env ct).2) := by
  simp [providerPhase, h]

theorem initializeEnvCore_merge_error (env : Env) (evs0 : List Event) (e : JsErr)
    (hm : mergeStep env (baseMetaOf env) = (evs0, .error e)) :
    initializeEnvCore env = (evs0, .error e) := by
  unfold initializeEnvCore
  rw [hm]

theorem initializeEnvCore_cat_error (env : Env) (evs0 : List Event)
    (m s : Obj) (e : JsErr)
    (hm : mergeStep env (baseMetaOf env) = (evs0, .ok (m, s)))
    (hct : resolveCategoryTasks env.modules env.categoryPluginInfo
      (s.map Prod.fst) = .error e) :
    initializeEnvCore env = (evs0, .error e) := by
  unfold initializeEnvCore
  rw [hm]
  simp [hct]

theorem initializeEnvCore_prov_error (env : Env) (evs0 : List Event)
    (m s : Obj) (ct : List HookTask) (e : JsErr)
    (hm : mergeStep env (baseMetaOf env) = (evs0, .ok (m, s)))
    (hct : resolveCategoryTasks env.modules env.categoryPluginInfo
      (s.map Prod.fst) = .ok ct)
    (hpt : resolveProviderTasks env.modules env.providerPlugins m
      env.providers = .error e) :
    initializeEnvCore env = (evs0, .error e) := by
  unfold initializeEnvCore
  rw [hm]
  simp [hct, hpt]

theorem initializeEnvCore_eq (env : Env) (evs0 : List Event) (m s : Obj)
    (ct pt : List HookTask)
    (hm : mergeStep env (baseMetaOf env) = (evs0, .ok (m, s)))
    (hct : resolveCategoryTasks env.modules env.categoryPluginInfo
      (s.map Prod.fst) = .ok ct)
    (hpt : resolveProviderTasks env.modules env.providerPlugins m
      env.providers = .ok pt) :
    initializeEnvCore env = (evs0 ++ (providerPhase env pt ct).1,
      (providerPhase env pt ct).2) := by
  unfold initializeEnvCore
  rw [hm]
  simp [hct, hpt]

theorem initializeEnv_error (env : Env) (e : JsErr)
    (h : (initializeEnvCore env).2 = .error e) :
    initializeEnv env = ((initializeEnvCore env).1 ++ [.spinnerFail], .error e) := by
  simp [initializeEnv, h]

theorem initializeEnv_ok (env : Env) (h : (initializeEnvCore env).2 = .ok ()) :
    initializeEnv env = ((initializeEnvCore env).1, .ok ()) := by
  simp [initializeEnv, h]

theorem outputsStep_mem (env : Env) (ev : Event) (h : ev ∈ (outputsStep env).1) :
    ev.isLiteralEv = true := by
  cases ho : env.outputsResult with
  | error e =>
    rw [outputsStep_error env e ho] at h
    simp only [List.mem_singleton] at h
    subst h
    rfl
  | ok u =>
    cases u
    rw [outputsStep_ok env ho] at h
    simp only [List.mem_cons, List.not_mem_nil, or_false] at h
    rcases h with rfl | rfl <;> rfl

theorem pushStep_mem (env : Env) (ev : Event) (h : ev ∈ (pushStep env).1) :
    (∃ ts, resolvePushTasks env.modules env.providerPlugins env.resourceStatus
      env.providers = .ok ts ∧ ∃ t ∈ ts, ev ∈ t.events)
    ∨ ev.isLiteralEv = true := by
  cases hres : resolvePushTasks env.modules env.providerPlugins
      env.resourceStatus env.providers with
  | error e =>
    rw [pushStep_resolve_error env e hres] at h
    exact absurd h (List.not_mem_nil ev)
  | ok ts =>
    cases hseq : (sequential ts).2 with
    | error e =>
      rw [pushStep_seq_error env ts e hres hseq] at h
      exact Or.inl ⟨ts, rfl, sequential_mem_events ts ev h⟩
    | ok u =>
      cases u
      rw [pushStep_seq_ok env ts hres hseq] at h
      rcases List.mem_append.mp h with h1 | h2
      · exact Or.inl ⟨ts, rfl, sequential_mem_events ts ev h1⟩
      · exact Or.inr (outputsStep_mem env ev h2)

theorem promptStep_mem (env : Env) (ev : Event) (h : ev ∈ (promptStep env).1) :
    ev.isLiteralEv = true := by
  cases hf : env.forcePush with
  | some b =>
    rw [promptStep_preset env b hf] at h
    exact absurd h (List.not_mem_nil ev)
  | none =>
    rw [promptStep_prompt env hf] at h
    simp only [List.mem_singleton] at h
    subst h
    rfl

theorem pushDecisionStep_mem (env : Env) (ev : Event)
    (h : ev ∈ (pushDecisionStep env).1) :
    (∃ ts, resolvePushTasks env.modules env.providerPlugins env.resourceStatus
      env.providers = .ok ts ∧ ∃ t ∈ ts, ev ∈ t.events)
    ∨ ev.isLiteralEv = true := by
  cases hp : (promptStep env).2 with
  | true =>
    rw [pushDecisionStep_force env hp] at h
    rcases List.mem_append.mp h with h1 | h2
    · exact Or.inr (promptStep_mem env ev h1)
    · exact pushStep_mem env ev h2
  | false =>
    rw [pushDecisionStep_noforce env hp] at h
    rcases List.mem_append.mp h with h1 | h2
    · exact Or.inr (promptStep_mem env ev h1)
    · exact Or.inr (outputsStep_mem env ev h2)

theorem categoryPhase_mem (env : Env) (ct : List HookTask) (ev : Event)
    (h : ev ∈ (categoryPhase env ct).1) :
    (∃ t ∈ ct, ev ∈ t.events) ∨
    (∃ ts, resolvePushTasks env.modules env.providerPlugins env.resourceStatus
      env.providers = .ok ts ∧ ∃ t ∈ ts, ev ∈ t.events)
    ∨ ev.isLiteralEv = true := by
  cases hseq : (sequential ct).2 with
  | error e =>
    rw [categoryPhase_seq_error env ct e hseq] at h
    simp only [List.append_assoc, List.cons_append, List.nil_append,
      List.mem_cons, List.mem_append, List.mem_singleton,
      List.not_mem_nil, or_false] at h
    rcases h with rfl | h1 | rfl
    · exact Or.inr (Or.inr rfl)
    · exact Or.inl (sequential_mem_events ct ev h1)
    · exact Or.inr (Or.inr rfl)
  | ok u =>
    cases u
    rw [categoryPhase_seq_ok env ct hseq] at h
    simp only [List.append_assoc, List.cons_append, List.nil_append,
      List.mem_cons, List.mem_append, List.mem_singleton,
      List.not_mem_nil, or_false] at h
    rcases h with rfl | h1 | rfl | h2
    · exact Or.inr (Or.inr rfl)
    · exact Or.inl (sequential_mem_events ct ev h1)
    · exact Or.inr (Or.inr rfl)
    · exact Or.inr (pushDecisionStep_mem env ev h2)

theorem providerPhase_mem (env : Env) (pt ct : List HookTask) (ev : Event)
    (h : ev ∈ (providerPhase env pt ct).1) : TailEvent env pt ct ev := by
  cases hseq : (sequential pt).2 with
  | error e =>
    rw [providerPhase_seq_error env pt ct e hseq] at h
    simp only [List.append_assoc, List.cons_append, List.nil_append,
      List.mem_cons, List.mem_append, List.mem_singleton,
      List.not_mem_nil, or_false] at h
    rcases h with rfl | rfl | h1 | rfl
    · exact Or.inr (Or.inr (Or.inr rfl))
    · exact Or.inr (Or.inr (Or.inr rfl))
    · exact Or.inl (sequential_mem_events pt ev h1)
    · exact Or.inr (Or.inr (Or.inr rfl))
  | ok u =>
    cases u
    rw [providerPhase_seq_ok env pt ct hseq] at h
    simp only [List.append_assoc, List.cons_append, List.nil_append,
      List.mem_cons, List.mem_append, List.mem_singleton,
      List.not_mem_nil, or_false] at h
    rcases h with rfl | rfl | h1 | rfl | rfl | rfl | h2
    · exact Or.inr (Or.inr (Or.inr rfl))
    · exact Or.inr (Or.inr (Or.inr rfl))
    · exact Or.inl (sequential_mem_events pt ev h1)
    · exact Or.inr (Or.inr (Or.inr rfl))
    · exact Or.inr (Or.inr (Or.inr rfl))
    · exact Or.inr (Or.inr (Or.inr rfl))
    · rcases categoryPhase_mem env ct ev h2 with h3 | h3 | h3
      · exact Or.inr (Or.inl h3)
      · exact Or.inr (Or.inr (Or.inl h3))
      · exact Or.inr (Or.inr (Or.inr h3))

theorem initializeEnvCore_mem (env : Env) (ev : Event)
    (h : ev ∈ (initializeEnvCore env).1) :
    ev ∈ (mergeStep env (baseMetaOf env)).1 ∨
    ∃ evs0 m s ct pt, mergeStep env (baseMetaOf env) = (evs0, .ok (m, s)) ∧
      resolveCategoryTasks env.modules env.categoryPluginInfo
        (s.map Prod.fst) = .ok ct ∧
      resolveProviderTasks env.modules env.providerPlugins m
        env.providers = .ok pt ∧
      TailEvent env pt ct ev := by
  cases hm : mergeStep env (baseMetaOf env) with
  | mk evs0 r =>
    cases r with
    | error e =>
      rw [initializeEnvCore_merge_error env evs0 e hm] at h
      exact Or.inl h
    | ok msp =>
      obtain ⟨m, s⟩ := msp
      cases hct : resolveCategoryTasks env.modules env.categoryPluginInfo
          (s.map Prod.fst) with
      | error e =>
        rw [initializeEnvCore_cat_error env evs0 m s e hm hct] at h
        exact Or.inl h
      | ok ct =>
        cases hpt : resolveProviderTasks env.modules env.providerPlugins m
            env.providers with
        | error e =>
          rw [initializeEnvCore_prov_error env evs0 m s ct e hm hct hpt] at h
          exact Or.inl h
        | ok pt =>
          rw [initializeEnvCore_eq env evs0 m s ct pt hm hct hpt] at h
          rcases List.mem_append.mp h with h1 | h2
          · exact Or.inl h1
          · exact Or.inr ⟨evs0, m, s, ct, pt, rfl, hct, hpt,
              providerPhase_mem env pt ct ev h2⟩

theorem providerTasks_wf (mods : String → LoadResult)
    (plugins : String → String) (meta : Obj) (ps : List String)
    (pt : List HookTask)
    (hpt : resolveProviderTasks mods plugins meta ps = .ok pt) :
    ∀ t ∈ pt, ∀ ev ∈ t.events, Event.isTaskEv ev = true := by
  intro t ht ev hev
  rcases resolveProviderTasks_tasks mods plugins meta ps pt hpt t ht with
    hnil | ⟨p, v, _, _, hevents⟩
  · rw [hnil] at hev
    exact absurd hev (List.not_mem_nil ev)
  · rw [hevents] at hev
    simp only [List.mem_singleton] at hev
    subst hev
    rfl

theorem categoryTasks_wf (mods : String → LoadResult)
    (info : List (String × List String)) (initialized : List String)
    (ct : List HookTask)
    (hct : resolveCategoryTasks mods info initialized = .ok ct) :
    ∀ t ∈ ct, ∀ ev ∈ t.events, Event.isTaskEv ev = true := by
  intro t ht ev hev
  obtain ⟨loc, hevents⟩ :=
    resolveCategoryTasks_tasks mods info initialized ct hct t ht
  rw [hevents] at hev
  simp only [List.mem_singleton] at hev
  subst hev
  rfl

theorem pushTasks_wf (mods : String → LoadResult) (plugins : String → String)
    (rstatus : String → Val) (ps : List String) (ts : List HookTask)
    (hts : resolvePushTasks mods plugins rstatus ps = .ok ts) :
    ∀ t ∈ ts, ∀ ev ∈ t.events, Event.isTaskEv ev = true := by
  intro t ht ev hev
  obtain ⟨p, _, hevents⟩ := resolvePushTasks_tasks mods plugins rstatus ps ts hts t ht
  rw [hevents] at hev
  simp only [List.mem_singleton] at hev
  subst hev
  rfl

theorem tailEvent_taskEv_or_literal (env : Env) (pt ct : List HookTask)
    (ev : Event)
    (hptw : ∀ t ∈ pt, ∀ e2 ∈ t.events, Event.isTaskEv e2 = true)
    (hctw : ∀ t ∈ ct, ∀ e2 ∈ t.events, Event.isTaskEv e2 = true)
    (h : TailEvent env pt ct ev) :
    Event.isTaskEv ev = true ∨ Event.isLiteralEv ev = true := by
  rcases h with ⟨t, ht, hev⟩ | ⟨t, ht, hev⟩ | ⟨ts, hts, t, ht, hev⟩ | hlit
  · exact Or.inl (hptw t ht ev hev)
  · exact Or.inl (hctw t ht ev hev)
  · exact Or.inl (pushTasks_wf env.modules env.providerPlugins
      env.resourceStatus env.providers ts hts t ht ev hev)
  · exact Or.inr hlit

theorem taskEv_not_outputs (ev : Event) (h : ev.isTaskEv = true) :
    ev.isOutputsEv = false := by
  cases ev <;> simp_all [Event.isTaskEv, Event.isOutputsEv]

theorem taskEv_not_spinnerFail (ev : Event) (h : ev.isTaskEv = true) :
    ev.isSpinnerFailEv = false := by
  cases ev <;> simp_all [Event.isTaskEv, Event.isSpinnerFailEv]

theorem literalEv_not_spinnerFail (ev : Event) (h : ev.isLiteralEv = true) :
    ev.isSpinnerFailEv = false := by
  cases ev <;> simp_all [Event.isLiteralEv, Event.isSpinnerFailEv]

theorem taskEv_not_mergeCall (ev : Event) (h : ev.isTaskEv = true) :
    ev.isMergeCallEv = false := by
  cases ev <;> simp_all [Event.isTaskEv, Event.isMergeCallEv]

theorem literalEv_not_mergeCall (ev : Event) (h : ev.isLiteralEv = true) :
    ev.isMergeCallEv = false := by
  cases ev <;> simp_all [Event.isLiteralEv, Event.isMergeCallEv]

theorem taskEv_not_setMeta (ev : Event) (h : ev.isTaskEv = true) :
    ev.isSetMetaEv = false := by
  cases ev <;> simp_all [Event.isTaskEv, Event.isSetMetaEv]

theorem literalEv_not_setMeta (ev : Event) (h : ev.isLiteralEv = true) :
    ev.isSetMetaEv = false := by
  cases ev <;> simp_all [Event.isLiteralEv, Event.isSetMetaEv]

theorem outputsStep_outputs_count (env : Env) :
    (outputsStep env).1.countP Event.isOutputsEv = 1 := by
  cases ho : env.outputsResult with
  | error e => rw [outputsStep_error env e ho]; rfl
  | ok u => cases u; rw [outputsStep_ok env ho]; rfl

theorem pushStep_ok_outputs_count (env : Env)
    (h : (pushStep env).2 = .ok ()) :
    (pushStep env).1.countP Event.isOutputsEv = 1 := by
  cases hres : resolvePushTasks env.modules env.providerPlugins
      env.resourceStatus env.providers with
  | error e =>
    rw [pushStep_resolve_error env e hres] at h
    simp at h
  | ok ts =>
    cases hseq : (sequential ts).2 with
    | error e =>
      rw [pushStep_seq_error env ts e hres hseq] at h
      simp at h
    | ok u =>
      cases u
      rw [pushStep_seq_ok env ts hres hseq]
      have h0 : (sequential ts).1.countP Event.isOutputsEv = 0 := by
        apply sequential_countP_zero
        intro t ht ev hev
        exact taskEv_not_outputs ev (pushTasks_wf env.modules env.providerPlugins
          env.resourceStatus env.providers ts hres t ht ev hev)
      rw [List.countP_append, h0, outputsStep_outputs_count]

theorem promptStep_outputs_count (env : Env) :
    (promptStep env).1.countP Event.isOutputsEv = 0 := by
  cases hf : env.forcePush with
  | some b => rw [promptStep_preset env b hf]; rfl
  | none => rw [promptStep_prompt env hf]; rfl

theorem pushDecisionStep_ok_outputs_count (env : Env)
    (h : (pushDecisionStep env).2 = .ok ()) :
    (pushDecisionStep env).1.countP Event.isOutputsEv = 1 := by
  cases hp : (promptStep env).2 with
  | true =>
    have h2 : (pushStep env).2 = .ok () := by
      rw [pushDecisionStep_force env hp] at h
      exact h
    rw [pushDecisionStep_force env hp]
    rw [List.countP_append, promptStep_outputs_count,
      pushStep_ok_outputs_count env h2]
  | false =>
    rw [pushDecisionStep_noforce env hp]
    rw [List.countP_append, promptStep_outputs_count,
      outputsStep_outputs_count]

theorem categoryPhase_ok_outputs_count (env : Env) (ct : List HookTask)
    (hct0 : (sequential ct).1.countP Event.isOutputsEv = 0)
    (h : (categoryPhase env ct).2 = .ok ()) :
    (categoryPhase env ct).1.countP Event.isOutputsEv = 1 := by
  cases hseq : (sequential ct).2 with
  | error e =>
    rw [categoryPhase_seq_error env ct e hseq] at h
    simp at h
  | ok u =>
    cases u
    have h2 : (pushDecisionStep env).2 = .ok () := by
      rw [categoryPhase_seq_ok env ct hseq] at h
      exact h
    rw [categoryPhase_seq_ok env ct hseq]
    simp only [List.countP_append, hct0,
      pushDecisionStep_ok_outputs_count env h2]
    rfl

theorem providerPhase_ok_outputs_count (env : Env) (pt ct : List HookTask)
    (hpt0 : (sequential pt).1.countP Event.isOutputsEv = 0)
    (hct0 : (sequential ct).1.countP Event.isOutputsEv = 0)
    (h : (providerPhase env pt ct).2 = .ok ()) :
    (providerPhase env pt ct).1.countP Event.isOutputsEv = 1 := by
  cases hseq : (sequential pt).2 with
  | error e =>
    rw [providerPhase_seq_error env pt ct e hseq] at h
    simp at h
  | ok u =>
    cases u
    have h2 : (categoryPhase env ct).2 = .ok () := by
      rw [providerPhase_seq_ok env pt ct hseq] at h
      exact h
    rw [providerPhase_seq_ok env pt ct hseq]
    simp only [List.countP_append, hpt0,
      categoryPhase_ok_outputs_count env ct hct0 h2]
    rfl

theorem initializeEnvCore_ok_outputs_count (env : Env)
    (h : (initializeEnvCore env).2 = .ok ()) :
    (initializeEnvCore env).1.countP Event.isOutputsEv = 1 := by
  cases hm : mergeStep env (baseMetaOf env) with
  | mk evs0 r =>
    cases r with
    | error e =>
      rw [initializeEnvCore_merge_error env evs0 e hm] at h
      simp at h
    | ok msp =>
      obtain ⟨m, s⟩ := msp
      cases hct : resolveCategoryTasks env.modules env.categoryPluginInfo
          (s.map Prod.fst) with
      | error e =>
        rw [initializeEnvCore_cat_error env evs0 m s e hm hct] at h
        simp at h
      | ok ct =>
        cases hpt : resolveProviderTasks env.modules env.providerPlugins m
            env.providers with
        | error e =>
          rw [initializeEnvCore_prov_error env evs0 m s ct e hm hct hpt] at h
          simp at h
        | ok pt =>
          have h2 : (providerPhase env pt ct).2 = .ok () := by
            rw [initializeEnvCore_eq env evs0 m s ct pt hm hct hpt] at h
            exact h
          have hm0 : evs0.countP Event.isOutputsEv = 0 := by
            have hz := mergeStep_countP_zero env (baseMetaOf env)
              Event.isOutputsEv rfl rfl (fun m2 => rfl)
            rw [hm] at hz
            exact hz
          have hct0 : (sequential ct).1.countP Event.isOutputsEv = 0 := by
            apply sequential_countP_zero
            intro t ht ev hev
            exact taskEv_not_outputs ev (categoryTasks_wf env.modules
              env.categoryPluginInfo (s.map Prod.fst) ct hct t ht ev hev)
          have hpt0 : (sequential pt).1.countP Event.isOutputsEv = 0 := by
            apply sequential_countP_zero
            intro t ht ev hev
            exact taskEv_not_outputs ev (providerTasks_wf env.modules
              env.providerPlugins m env.providers pt hpt t ht ev hev)
          rw [initializeEnvCore_eq env evs0 m s ct pt hm hct hpt,
            List.countP_append, hm0,
            providerPhase_ok_outputs_count env pt ct hpt0 hct0 h2]

theorem initializeEnv_mem (env : Env) (ev : Event)
    (h : ev ∈ (initializeEnv env).1) :
    ev ∈ (initializeEnvCore env).1 ∨ ev = .spinnerFail := by
  cases hc : (initializeEnvCore env).2 with
  | ok u =>
    cases u
    rw [initializeEnv_ok env hc] at h
    exact Or.inl h
  | error e =>
    rw [initializeEnv_error env e hc] at h
    rcases List.mem_append.mp h with h1 | h2
    · exact Or.inl h1
    · simp only [List.mem_singleton] at h2
      exact Or.inr h2

theorem initializeEnv_countP_zero (env : Env) (p : Event → Bool)
    (hsf : p .spinnerFail = false)
    (hz : (initializeEnvCore env).1.countP p = 0) :
    (initializeEnv env).1.countP p = 0 := by
  cases hc : (initializeEnvCore env).2 with
  | ok u =>
    cases u
    rw [initializeEnv_ok env hc]
    exact hz
  | error e =>
    rw [initializeEnv_error env e hc, List.countP_append, hz]
    simp [List.countP_cons, hsf]

theorem initializeEnvCore_countP_zero_of (env : Env) (p : Event → Bool)
    (hmerge : ∀ ev ∈ (mergeStep env (baseMetaOf env)).1, p ev = false)
    (htask : ∀ ev, Event.isTaskEv ev = true → p ev = false)
    (hlit : ∀ ev, Event.isLiteralEv ev = true → p ev = false) :
    (initializeEnvCore env).1.countP p = 0 := by
  rw [List.countP_eq_zero]
  intro ev hev
  rcases initializeEnvCore_mem env ev hev with h1 |
    ⟨evs0, m, s, ct, pt, hm, hct, hpt, htl⟩
  · simp [hmerge ev h1]
  · rcases tailEvent_taskEv_or_literal env pt ct ev
      (providerTasks_wf env.modules env.providerPlugins m env.providers pt hpt)
      (categoryTasks_wf env.modules env.categoryPluginInfo (s.map Prod.fst) ct hct)
      htl with h2 | h2
    · simp [htask ev h2]
    · simp [hlit ev h2]

theorem initializeEnvCore_spinnerFail_count (env : Env) :
    (initializeEnvCore env).1.countP Event.isSpinnerFailEv = 0 := by
  rw [List.countP_eq_zero]
  intro ev hev
  rcases initializeEnvCore_mem env ev hev with h1 |
    ⟨evs0, m, s, ct, pt, hm, hct, hpt, htail⟩
  · rcases mergeStep_events env (baseMetaOf env) ev h1 with rfl | rfl | ⟨m2, rfl⟩ <;>
      simp [Event.isSpinnerFailEv]
  · rcases tailEvent_taskEv_or_literal env pt ct ev
      (providerTasks_wf env.modules env.providerPlugins m env.providers pt hpt)
      (categoryTasks_wf env.modules env.categoryPluginInfo (s.map Prod.fst) ct hct)
      htail with h2 | h2
    · simp [taskEv_not_spinnerFail ev h2]
    · simp [literalEv_not_spinnerFail ev h2]

/-- C8: the sequential task executor runs the tasks strictly in list order,
one at a time; on the first task failure it stops without attempting any
subsequent task, and the raised error is exactly that of the failing task;
the empty task list succeeds as a no-op. -/
theorem c8_sequential_executor :
    sequential [] = ([], .ok ()) ∧
    (∀ ts : List HookTask, (∀ t ∈ ts, t.result = .ok ()) →
      sequential ts = (ts.flatMap HookTask.events, .ok ())) ∧
    (∀ (ts1 : List HookTask) (t : HookTask) (ts2 : List HookTask) (e : JsErr),
      (∀ x ∈ ts1, x.result = .ok ()) → t.result = .error e →
      sequential (ts1 ++ t :: ts2)
        = (ts1.flatMap HookTask.events ++ t.events, .error e)) :=
  ⟨sequential_nil, sequential_all_ok, sequential_first_error⟩

/-- Witness for C8 at tasks [A, B, C] with B failing: A completes, C never
starts, the raised error is exactly that of B; and the empty list is a
no-op. -/
theorem c8_sequential_executor_witness :
    sequential [⟨[Event.categoryInitEnv "a"], .ok ()⟩,
        ⟨[Event.categoryInitEnv "b"], .error (.error "boom")⟩,
        ⟨[Event.categoryInitEnv "c"], .ok ()⟩]
      = ([Event.categoryInitEnv "a", Event.categoryInitEnv "b"],
        .error (.error "boom")) ∧
    sequential [] = ([], .ok ()) := by
  constructor
  · have h := c8_sequential_executor.2.2 [⟨[Event.categoryInitEnv "a"], .ok ()⟩]
      ⟨[Event.categoryInitEnv "b"], .error (.error "boom")⟩
      [⟨[Event.categoryInitEnv "c"], .ok ()⟩] (.error "boom")
      (by
        intro x hx
        simp only [List.mem_singleton] at hx
        subst hx
        rfl)
      rfl
    exact h.trans rfl
  · exact c8_sequential_executor.1

/-- C4: any exception raised inside the orchestration body is caught exactly
once at the top level: exactly one spinner-failure notification is emitted
and the original error object is re-raised to the caller unmodified, after
the core trace. -/
theorem c4_top_level_catch (env : Env) (e : JsErr)
    (h : (initializeEnvCore env).2 = .error e) :
    (initializeEnv env).2 = .error e ∧
    (initializeEnv env).1.countP Event.isSpinnerFailEv = 1 ∧
    (initializeEnv env).1 = (initializeEnvCore env).1 ++ [.spinnerFail] := by
  rw [initializeEnv_error env e h]
  refine ⟨rfl, ?_, rfl⟩
  rw [List.countP_append, initializeEnvCore_spinnerFail_count]
  rfl

/-- Witness for C4: the failing run of `envC4` re-raises the provider load
fault unchanged and emits exactly one spinner failure. -/
theorem c4_top_level_catch_witness :
    (initializeEnvCore envC4).2 = .error (.fault "PluginNotLoadedFault"
      ("Could not load plugin for provider " ++ "awscloudformation" ++ ".")
      (.error "MODULE_NOT_FOUND")) ∧
    (initializeEnv envC4).2 = .error (.fault "PluginNotLoadedFault"
      ("Could not load plugin for provider " ++ "awscloudformation" ++ ".")
      (.error "MODULE_NOT_FOUND")) ∧
    (initializeEnv envC4).1.countP Event.isSpinnerFailEv = 1 := by
  refine ⟨rfl, ?_, ?_⟩
  · exact (c4_top_level_catch envC4 _ rfl).1
  · exact (c4_top_level_catch envC4 (.fault "PluginNotLoadedFault"
      ("Could not load plugin for provider " ++ "awscloudformation" ++ ".")
      (.error "MODULE_NOT_FOUND")) rfl).2.1

/-- C9: in every run that completes, the category-outputs-changed hook is
invoked exactly once, whether or not the push phase ran. -/
theorem c9_outputs_hook_once (env : Env)
    (h : (initializeEnv env).2 = .ok ()) :
    (initializeEnv env).1.countP Event.isOutputsEv = 1 := by
  have hcore : (initializeEnvCore env).2 = .ok () := by
    cases hc : (initializeEnvCore env).2 with
    | error e =>
      rw [initializeEnv_error env e hc] at h
      simp at h
    | ok u =>
      cases u
      rfl
  rw [initializeEnv_ok env hcore]
  exact initializeEnvCore_ok_outputs_count env hcore

/-- Witness for C9, on a completing run with push executed and on one with
push declined: the outputs hook fires exactly once in both. -/
theorem c9_outputs_hook_once_witness :
    (initializeEnv envC9).2 = .ok () ∧
    (initializeEnv envC9).1.countP Event.isOutputsEv = 1 ∧
    (initializeEnv envC9b).2 = .ok () ∧
    (initializeEnv envC9b).1.countP Event.isOutputsEv = 1 :=
  ⟨rfl, c9_outputs_hook_once envC9 rfl, rfl, c9_outputs_hook_once envC9b rfl⟩

/-- C3: when the push phase runs (push confirmed) and a push task fails,
the failure propagates to the caller unwrapped: the run outcome is exactly
the error object of the failing task, not a ProjectInitFault wrapper. -/
theorem c3_push_failure_unwrapped (env : Env) (evs0 : List Event)
    (m s : Obj) (ct pt put : List HookTask) (e : JsErr)
    (hm : mergeStep env (baseMetaOf env) = (evs0, .ok (m, s)))
    (hct : resolveCategoryTasks env.modules env.categoryPluginInfo
      (s.map Prod.fst) = .ok ct)
    (hpt : resolveProviderTasks env.modules env.providerPlugins m
      env.providers = .ok pt)
    (hseqp : (sequential pt).2 = .ok ())
    (hseqc : (sequential ct).2 = .ok ())
    (hforce : (promptStep env).2 = true)
    (hput : resolvePushTasks env.modules env.providerPlugins
      env.resourceStatus env.providers = .ok put)
    (hseqpush : (sequential put).2 = .error e) :
    (initializeEnv env).2 = .error e := by
  have hpush : (pushStep env).2 = .error e := by
    rw [pushStep_seq_error env put e hput hseqpush]
  have hdec : (pushDecisionStep env).2 = .error e := by
    rw [pushDecisionStep_force env hforce]
    exact hpush
  have hcat : (categoryPhase env ct).2 = .error e := by
    rw [categoryPhase_seq_ok env ct hseqc]
    exact hdec
  have hprov : (providerPhase env pt ct).2 = .error e := by
    rw [providerPhase_seq_ok env pt ct hseqp]
    exact hcat
  have hcore : (initializeEnvCore env).2 = .error e := by
    rw [initializeEnvCore_eq env evs0 m s ct pt hm hct hpt]
    exact hprov
  rw [initializeEnv_error env e hcore]

/-- Witness for C3: the push of `envC3` fails with the raw push error, and
that exact error is what the run raises. -/
theorem c3_push_failure_unwrapped_witness :
    (sequential putC3).2 = .error (.error "push boom") ∧
    (initializeEnv envC3).2 = .error (.error "push boom") :=
  ⟨rfl, c3_push_failure_unwrapped envC3 evs0C3 mC3 mC3 ctC3 ptC3 putC3
    (.error "push boom") rfl rfl rfl rfl rfl rfl rfl rfl⟩

/-- C2 (amended): merging environment-parameter overrides for a (category,
resource) pair is a no-op on the meta when no overrides are recorded for
the pair — in particular it never raises then, even when the backend-config
entry is absent — and when both the overrides and the entry are present the
override values win over the backend-config values for the same keys.
However, when overrides are recorded and the entry is absent from the meta,
the merge raises a TypeError rather than being a no-op. -/
theorem c2_env_param_merge (epm : EnvParamManager) (meta : Obj)
    (category serviceName : String) :
    (overridesPresent epm category serviceName = false →
      mergeCategoryEnvParamsIntoAmplifyMeta epm meta category serviceName
        = .ok meta) ∧
    (∀ catObj svcObj,
      overridesPresent epm category serviceName = true →
      getKey meta category = .obj catObj →
      getKey catObj serviceName = .obj svcObj →
      mergeCategoryEnvParamsIntoAmplifyMeta epm meta category serviceName
        = .ok (setKey meta category (.obj (setKey catObj serviceName
            (.obj (objAssign svcObj
              (epm.getResourceParamManager category serviceName).getAllParams))))) ∧
      ((((epm.getResourceParamManager category serviceName).getAllParams.map
          Prod.fst).Nodup →
        ∀ k v, (k, v) ∈ (epm.getResourceParamManager category serviceName).getAllParams →
        getKey (objAssign svcObj
          (epm.getResourceParamManager category serviceName).getAllParams) k = v) ∧
       (∀ k, hasKey (epm.getResourceParamManager category serviceName).getAllParams k = false →
        getKey (objAssign svcObj
          (epm.getResourceParamManager category serviceName).getAllParams) k
          = getKey svcObj k))) ∧
    (overridesPresent epm category serviceName = true →
      getKey meta category = .undefined →
      mergeCategoryEnvParamsIntoAmplifyMeta epm meta category serviceName
        = .error (.typeError "Cannot read properties of undefined")) := by
  refine ⟨?_, ?_, ?_⟩
  · intro hover
    simp [mergeCategoryEnvParamsIntoAmplifyMeta, hover]
  · intro catObj svcObj hover hcat hsvc
    refine ⟨?_, ?_, ?_⟩
    · simp [mergeCategoryEnvParamsIntoAmplifyMeta, hover, hcat, hsvc]
    · intro hnd k v hmem
      exact getKey_objAssign_of_mem svcObj _ k v hnd hmem
    · intro k hk
      exact getKey_objAssign_of_hasKey_eq_false svcObj _ k hk
  · intro hover hcat
    simp [mergeCategoryEnvParamsIntoAmplifyMeta, hover, hcat]

/-- C2 counterexample: with overrides recorded for (hosting,
ElasticContainer) and the corresponding entry absent from the meta, the
merge raises a TypeError — it is not the error-free no-op the claim
states. -/
theorem c2_counterexample :
    overridesPresent epmC2 "hosting" "ElasticContainer" = true ∧
    getKey ([] : Obj) "hosting" = .undefined ∧
    mergeCategoryEnvParamsIntoAmplifyMeta epmC2 [] "hosting" "ElasticContainer"
      = .error (.typeError "Cannot read properties of undefined") :=
  ⟨rfl, rfl, rfl⟩

/-- Witness for C2 (amended): a no-overrides manager leaves the meta alone;
with overrides and the entry present the override value replaces the
backend-config value for the shared key and untouched keys survive; with
the entry absent the TypeError fires. -/
theorem c2_env_param_merge_witness :
    mergeCategoryEnvParamsIntoAmplifyMeta ⟨[]⟩ [] "hosting" "ElasticContainer"
      = .ok [] ∧
    mergeCategoryEnvParamsIntoAmplifyMeta epmC2 metaC2 "hosting" "ElasticContainer"
      = .ok [("hosting", .obj [("ElasticContainer",
          .obj [("k", .atom "v"), ("size", .atom "1")])]),
         ("auth", .obj [("svc", .atom "a")])] ∧
    getKey (objAssign [("k", .atom "old"), ("size", .atom "1")]
      (epmC2.getResourceParamManager "hosting" "ElasticContainer").getAllParams)
      "k" = .atom "v" ∧
    getKey (objAssign [("k", .atom "old"), ("size", .atom "1")]
      (epmC2.getResourceParamManager "hosting" "ElasticContainer").getAllParams)
      "size" = .atom "1" ∧
    mergeCategoryEnvParamsIntoAmplifyMeta epmC2 [] "hosting" "ElasticContainer"
      = .error (.typeError "Cannot read properties of undefined") := by
  have hpart2 := (c2_env_param_merge epmC2 metaC2 "hosting" "ElasticContainer").2.1
    [("ElasticContainer", .obj [("k", .atom "old"), ("size", .atom "1")])]
    [("k", .atom "old"), ("size", .atom "1")] rfl rfl rfl
  refine ⟨(c2_env_param_merge ⟨[]⟩ [] "hosting" "ElasticContainer").1 rfl,
    hpart2.1.trans rfl,
    hpart2.2.1 (by decide) "k" (.atom "v") (List.mem_cons_self _ _),
    hpart2.2.2 "size" rfl,
    (c2_env_param_merge epmC2 [] "hosting" "ElasticContainer").2.2 rfl rfl⟩

/-- C7: the resolved category task list has exactly one task per plugin, in
iteration order, for the plugins of initialized categories whose loaded
module exposes `initEnv`; uninitialized categories contribute no task
regardless of their plugin list, and hook-less modules contribute no task
and cause no error. -/
theorem c7_category_resolution (mods : String → LoadResult)
    (info : List (String × List String)) (initialized : List String)
    (h : ∀ ci ∈ info, ci.1 ∈ initialized →
      ∀ loc ∈ ci.2, ∃ m, mods loc = .loaded m) :
    resolveCategoryTasks mods info initialized
      = .ok (expectedCategoryTasks mods info initialized) :=
  resolveCategoryTasks_complete mods info initialized h

theorem providerSeq_countP_zero (mods : String → LoadResult)
    (plugins : String → String) (meta : Obj) (ps : List String)
    (pt : List HookTask)
    (hpt : resolveProviderTasks mods plugins meta ps = .ok pt)
    (p : Event → Bool) (hp : ∀ q v, p (.providerInitEnv q v) = false) :
    (sequential pt).1.countP p = 0 := by
  apply sequential_countP_zero
  intro t ht ev hev
  rcases resolveProviderTasks_tasks mods plugins meta ps pt hpt t ht with
    hnil | ⟨q, w, _, _, hevents⟩
  · rw [hnil] at hev
    exact absurd hev (List.not_mem_nil ev)
  · rw [hevents] at hev
    simp only [List.mem_singleton] at hev
    subst hev
    exact hp q w

theorem categorySeq_countP_zero (mods : String → LoadResult)
    (info : List (String × List String)) (initialized : List String)
    (ct : List HookTask)
    (hct : resolveCategoryTasks mods info initialized = .ok ct)
    (p : Event → Bool) (hp : ∀ loc, p (.categoryInitEnv loc) = false) :
    (sequential ct).1.countP p = 0 := by
  apply sequential_countP_zero
  intro t ht ev hev
  obtain ⟨loc, hevents⟩ := resolveCategoryTasks_tasks mods info initialized ct hct t ht
  rw [hevents] at hev
  simp only [List.mem_singleton] at hev
  subst hev
  exact hp loc

theorem mergeStepPair_countP_zero (env : Env) (base : Obj) (evs0 : List Event)
    (r : Except JsErr (Obj × Obj)) (hm : mergeStep env base = (evs0, r))
    (p : Event → Bool) (h1 : p .mergeBackendConfig = false)
    (h2 : p (.mergeEnvParams "hosting" "ElasticContainer") = false)
    (h3 : ∀ m2, p (.setMeta m2) = false) : evs0.countP p = 0 := by
  have hz := mergeStep_countP_zero env base p h1 h2 h3
  rw [hm] at hz
  exact hz

/-- Witness for C7: with `auth` initialized and `storage` not, resolution
succeeds with exactly the single `a1` task — `a2` has no hook and the
unloadable `s1` of the skipped `storage` category causes no error. -/
theorem c7_category_resolution_witness :
    resolveCategoryTasks modsC7 [("auth", ["a1", "a2"]), ("storage", ["s1"])]
      ["auth", "providers"]
      = .ok [⟨[Event.categoryInitEnv "a1"], .ok ()⟩] := by
  have h := c7_category_resolution modsC7
    [("auth", ["a1", "a2"]), ("storage", ["s1"])] ["auth", "providers"]
    (by
      intro ci hci hmem loc hloc
      rcases List.mem_cons.mp hci with rfl | hci2
      · rcases List.mem_cons.mp hloc with rfl | hloc2
        · exact ⟨modInitOk, rfl⟩
        · rcases List.mem_singleton.mp hloc2 with rfl
          exact ⟨modNoHooks, rfl⟩
      · rcases List.mem_singleton.mp hci2 with rfl
        simp at hmem)
  exact h.trans rfl

/-- C5: a provider-initialization task failure is wrapped into a single
ProjectInitFault carrying the platform text for the environment name and
the original message, and the run ends there — no category task, push task
or outputs regeneration executes; a category-initialization task failure is
wrapped analogously with the categories text and no push or outputs step
executes. -/
theorem c5_phase_failures_wrapped :
    (∀ (env : Env) (evs0 : List Event) (m s : Obj) (ct pt : List HookTask)
        (e : JsErr),
      mergeStep env (baseMetaOf env) = (evs0, .ok (m, s)) →
      resolveCategoryTasks env.modules env.categoryPluginInfo
        (s.map Prod.fst) = .ok ct →
      resolveProviderTasks env.modules env.providerPlugins m
        env.providers = .ok pt →
      (sequential pt).2 = .error e →
      (initializeEnv env).2 = .error (.fault "ProjectInitFault"
        ("Could not initialize platform for " ++ squote ++ env.envName
          ++ squote ++ ": " ++ e.message) e) ∧
      (initializeEnv env).1.countP Event.isCategoryInitEv = 0 ∧
      (initializeEnv env).1.countP Event.isPushEv = 0 ∧
      (initializeEnv env).1.countP Event.isOutputsEv = 0) ∧
    (∀ (env : Env) (evs0 : List Event) (m s : Obj) (ct pt : List HookTask)
        (e : JsErr),
      mergeStep env (baseMetaOf env) = (evs0, .ok (m, s)) →
      resolveCategoryTasks env.modules env.categoryPluginInfo
        (s.map Prod.fst) = .ok ct →
      resolveProviderTasks env.modules env.providerPlugins m
        env.providers = .ok pt →
      (sequential pt).2 = .ok () →
      (sequential ct).2 = .error e →
      (initializeEnv env).2 = .error (.fault "ProjectInitFault"
        ("Could not initialize categories for " ++ squote ++ env.envName
          ++ squote ++ ": " ++ e.message) e) ∧
      (initializeEnv env).1.countP Event.isPushEv = 0 ∧
      (initializeEnv env).1.countP Event.isOutputsEv = 0) := by
  constructor
  · intro env evs0 m s ct pt e hm hct hpt hseqp
    have hppe := providerPhase_seq_error env pt ct e hseqp
    have hcoreq := initializeEnvCore_eq env evs0 m s ct pt hm hct hpt
    have hcore2 : (initializeEnvCore env).2 = .error (wrapPlatformFault env e) := by
      rw [hcoreq, hppe]
    have htr : (initializeEnv env).1 = evs0
        ++ ([.spinnerStart env.isPulling, .timerStart .initEnvPlatform]
          ++ (sequential pt).1 ++ [.timerStop .initEnvPlatform])
        ++ [.spinnerFail] := by
      rw [initializeEnv_error env _ hcore2, hcoreq, hppe]
    refine ⟨?_, ?_, ?_, ?_⟩
    · rw [initializeEnv_error env _ hcore2]
      rfl
    · have h1 : evs0.countP Event.isCategoryInitEv = 0 :=
        mergeStepPair_countP_zero env (baseMetaOf env) evs0 _ hm _ rfl rfl
          (fun _ => rfl)
      have h2 : (sequential pt).1.countP Event.isCategoryInitEv = 0 :=
        providerSeq_countP_zero env.modules env.providerPlugins m
          env.providers pt hpt _ (fun _ _ => rfl)
      rw [htr]
      simp [List.countP_append, List.countP_cons, h1, h2, Event.isCategoryInitEv]
    · have h1 : evs0.countP Event.isPushEv = 0 :=
        mergeStepPair_countP_zero env (baseMetaOf env) evs0 _ hm _ rfl rfl
          (fun _ => rfl)
      have h2 : (sequential pt).1.countP Event.isPushEv = 0 :=
        providerSeq_countP_zero env.modules env.providerPlugins m
          env.providers pt hpt _ (fun _ _ => rfl)
      rw [htr]
      simp [List.countP_append, List.countP_cons, h1, h2, Event.isPushEv]
    · have h1 : evs0.countP Event.isOutputsEv = 0 :=
        mergeStepPair_countP_zero env (baseMetaOf env) evs0 _ hm _ rfl rfl
          (fun _ => rfl)
      have h2 : (sequential pt).1.countP Event.isOutputsEv = 0 :=
        providerSeq_countP_zero env.modules env.providerPlugins m
          env.providers pt hpt _ (fun _ _ => rfl)
      rw [htr]
      simp [List.countP_append, List.countP_cons, h1, h2, Event.isOutputsEv]
  · intro env evs0 m s ct pt e hm hct hpt hseqp hseqc
    have hcpe := categoryPhase_seq_error env ct e hseqc
    have hppo := providerPhase_seq_ok env pt ct hseqp
    have hcoreq := initializeEnvCore_eq env evs0 m s ct pt hm hct hpt
    have hcore2 : (initializeEnvCore env).2
        = .error (wrapCategoriesFault env e) := by
      rw [hcoreq, hppo, hcpe]
    have htr : (initializeEnv env).1 = evs0
        ++ ([.spinnerStart env.isPulling, .timerStart .initEnvPlatform]
          ++ (sequential pt).1
          ++ [.timerStop .initEnvPlatform, .spinnerSucceed env.isPulling,
              .projectDetails]
          ++ ([.timerStart .initEnvCategories] ++ (sequential ct).1
            ++ [.timerStop .initEnvCategories]))
        ++ [.spinnerFail] := by
      rw [initializeEnv_error env _ hcore2, hcoreq, hppo, hcpe]
    refine ⟨?_, ?_, ?_⟩
    · rw [initializeEnv_error env _ hcore2]
      rfl
    · have h1 : evs0.countP Event.isPushEv = 0 :=
        mergeStepPair_countP_zero env (baseMetaOf env) evs0 _ hm _ rfl rfl
          (fun _ => rfl)
      have h2 : (sequential pt).1.countP Event.isPushEv = 0 :=
        providerSeq_countP_zero env.modules env.providerPlugins m
          env.providers pt hpt _ (fun _ _ => rfl)
      have h3 : (sequential ct).1.countP Event.isPushEv = 0 :=
        categorySeq_countP_zero env.modules env.categoryPluginInfo
          (s.map Prod.fst) ct hct _ (fun _ => rfl)
      rw [htr]
      simp [List.countP_append, List.countP_cons, h1, h2, h3, Event.isPushEv]
    · have h1 : evs0.countP Event.isOutputsEv = 0 :=
        mergeStepPair_countP_zero env (baseMetaOf env) evs0 _ hm _ rfl rfl
          (fun _ => rfl)
      have h2 : (sequential pt).1.countP Event.isOutputsEv = 0 :=
        providerSeq_countP_zero env.modules env.providerPlugins m
          env.providers pt hpt _ (fun _ _ => rfl)
      have h3 : (sequential ct).1.countP Event.isOutputsEv = 0 :=
        categorySeq_countP_zero env.modules env.categoryPluginInfo
          (s.map Prod.fst) ct hct _ (fun _ => rfl)
      rw [htr]
      simp [List.countP_append, List.countP_cons, h1, h2, h3, Event.isOutputsEv]

/-- Witness for C5: the provider-init failure of `envC5a` surfaces as the
platform ProjectInitFault with no category, push, or outputs activity, and
the category-init failure of `envC5b` surfaces as the categories
ProjectInitFault with no push or outputs activity. -/
theorem c5_phase_failures_wrapped_witness :
    (initializeEnv envC5a).2 = .error (.fault "ProjectInitFault"
      ("Could not initialize platform for " ++ squote ++ "dev" ++ squote
        ++ ": " ++ "init boom") (.error "init boom")) ∧
    (initializeEnv envC5a).1.countP Event.isCategoryInitEv = 0 ∧
    (initializeEnv envC5a).1.countP Event.isPushEv = 0 ∧
    (initializeEnv envC5a).1.countP Event.isOutputsEv = 0 ∧
    (initializeEnv envC5b).2 = .error (.fault "ProjectInitFault"
      ("Could not initialize categories for " ++ squote ++ "dev" ++ squote
        ++ ": " ++ "cat boom") (.error "cat boom")) ∧
    (initializeEnv envC5b).1.countP Event.isPushEv = 0 ∧
    (initializeEnv envC5b).1.countP Event.isOutputsEv = 0 := by
  have ha := c5_phase_failures_wrapped.1 envC5a evs0C3 mC3 mC3 ctC3 ptC5a
    (.error "init boom") rfl rfl rfl rfl
  have hb := c5_phase_failures_wrapped.2 envC5b evs0C3 mC3 mC3 ctC5b ptC3
    (.error "cat boom") rfl rfl rfl rfl rfl
  exact ⟨ha.1, ha.2.1, ha.2.2.1, ha.2.2.2, hb.1, hb.2.1, hb.2.2⟩

/-- C6: if a provider plugin fails to load during resolution, the run aborts
before any initialization task runs — the outcome is the provider
PluginNotLoadedFault naming the offending provider and carrying the load
error, and no task-invocation or outputs event appears in the trace. -/
theorem c6_provider_load_failure (env : Env) (evs0 : List Event) (m s : Obj)
    (ct : List HookTask) (ps1 : List String) (p : String) (ps2 : List String)
    (e : JsErr)
    (hm : mergeStep env (baseMetaOf env) = (evs0, .ok (m, s)))
    (hct : resolveCategoryTasks env.modules env.categoryPluginInfo
      (s.map Prod.fst) = .ok ct)
    (hprov : env.providers = ps1 ++ p :: ps2)
    (hok : ∀ q ∈ ps1, ∃ mq, env.modules (env.providerPlugins q) = .loaded mq)
    (hf : env.modules (env.providerPlugins p) = .failed e) :
    (initializeEnv env).2 = .error (.fault "PluginNotLoadedFault"
      ("Could not load plugin for provider " ++ p ++ ".") e) ∧
    (initializeEnv env).1.countP Event.isTaskEv = 0 ∧
    (initializeEnv env).1.countP Event.isOutputsEv = 0 := by
  have hpt : resolveProviderTasks env.modules env.providerPlugins m
      env.providers = .error (.fault "PluginNotLoadedFault"
        ("Could not load plugin for provider " ++ p ++ ".") e) := by
    rw [hprov]
    exact resolveProviderTasks_first_failure env.modules env.providerPlugins m
      ps1 p ps2 e hok hf
  have hcoreq := initializeEnvCore_prov_error env evs0 m s ct _ hm hct hpt
  have hcore2 : (initializeEnvCore env).2 = .error (.fault "PluginNotLoadedFault"
      ("Could not load plugin for provider " ++ p ++ ".") e) := by
    rw [hcoreq]
  have htr : (initializeEnv env).1 = evs0 ++ [.spinnerFail] := by
    rw [initializeEnv_error env _ hcore2, hcoreq]
  refine ⟨?_, ?_, ?_⟩
  · rw [initializeEnv_error env _ hcore2]
  · have h1 : evs0.countP Event.isTaskEv = 0 :=
      mergeStepPair_countP_zero env (baseMetaOf env) evs0 _ hm _ rfl rfl
        (fun _ => rfl)
    rw [htr]
    simp [List.countP_append, List.countP_cons, h1, Event.isTaskEv]
  · have h1 : evs0.countP Event.isOutputsEv = 0 :=
      mergeStepPair_countP_zero env (baseMetaOf env) evs0 _ hm _ rfl rfl
        (fun _ => rfl)
    rw [htr]
    simp [List.countP_append, List.countP_cons, h1, Event.isOutputsEv]

/-- Witness for C6: the unloadable plugin of provider `p2` aborts the run of
`envC6` with the provider fault and an empty task record. -/
theorem c6_provider_load_failure_witness :
    (initializeEnv envC6).2 = .error (.fault "PluginNotLoadedFault"
      ("Could not load plugin for provider " ++ "p2" ++ ".")
      (.error "MODULE_NOT_FOUND")) ∧
    (initializeEnv envC6).1.countP Event.isTaskEv = 0 ∧
    (initializeEnv envC6).1.countP Event.isOutputsEv = 0 := by
  have h := c6_provider_load_failure envC6 evs0C3 mC3 mC3 ctC3 ["p1"] "p2"
    ["p3"] (.error "MODULE_NOT_FOUND") rfl rfl rfl
    (by
      intro q hq
      rcases List.mem_singleton.mp hq with rfl
      exact ⟨modInitOk, rfl⟩)
    rfl
  exact h

/-- C1 (amended): in every `restoreBackend` run the configuration-merge step
calls neither the backend-config read/merge path nor the parameter-merge
path and persists no meta; the meta used by the rest of the run is the
freshly built base meta, so each provider initEnv task receives
`baseMeta.providers[provider]` (from the team-provider info), not an entry
of the previously loaded meta. -/
theorem c1_restore_backend (env : Env) (h : env.restoreBackend = true) :
    (initializeEnv env).1.countP Event.isMergeCallEv = 0 ∧
    (initializeEnv env).1.countP Event.isSetMetaEv = 0 ∧
    (∀ p v, Event.providerInitEnv p v ∈ (initializeEnv env).1 →
      v = getKey [("awscloudformation", tpiProviderMeta env)] p) := by
  have hmr := mergeStep_restore env (baseMetaOf env) h
  refine ⟨?_, ?_, ?_⟩
  · apply initializeEnv_countP_zero env Event.isMergeCallEv rfl
    apply initializeEnvCore_countP_zero_of
    · intro ev hev
      rw [hmr] at hev
      exact absurd hev (List.not_mem_nil ev)
    · exact taskEv_not_mergeCall
    · exact literalEv_not_mergeCall
  · apply initializeEnv_countP_zero env Event.isSetMetaEv rfl
    apply initializeEnvCore_countP_zero_of
    · intro ev hev
      rw [hmr] at hev
      exact absurd hev (List.not_mem_nil ev)
    · exact taskEv_not_setMeta
    · exact literalEv_not_setMeta
  · intro p v hmem
    rcases initializeEnv_mem env _ hmem with hcore | hsf
    · rcases initializeEnvCore_mem env _ hcore with h1 |
        ⟨evs0, m, s, ct, pt, hm, hct, hpt, htl⟩
      · rw [hmr] at h1
        exact absurd h1 (List.not_mem_nil _)
      · rw [hmr] at hm
        have hsnd := congrArg Prod.snd hm
        simp only at hsnd
        injection hsnd with hpair
        injection hpair with hbm hsm
        rcases htl with ⟨t, ht, hev⟩ | ⟨t, ht, hev⟩ | ⟨ts, hts, t, ht, hev⟩ | hlit
        · rcases resolveProviderTasks_tasks env.modules env.providerPlugins m
            env.providers pt hpt t ht with hnil | ⟨q, w, hq, hfv, hevents⟩
          · rw [hnil] at hev
            exact absurd hev (List.not_mem_nil _)
          · rw [hevents] at hev
            simp only [List.mem_singleton] at hev
            injection hev with hpq hvw
            subst hpq
            subst hvw
            rw [← hbm] at hfv
            have hfe : providersFieldExc (baseMetaOf env) p
                = .ok (getKey [("awscloudformation", tpiProviderMeta env)] p) := rfl
            rw [hfe] at hfv
            injection hfv with h5
            exact h5.symm
        · obtain ⟨loc, hevents⟩ := resolveCategoryTasks_tasks env.modules
            env.categoryPluginInfo (s.map Prod.fst) ct hct t ht
          rw [hevents] at hev
          simp at hev
        · obtain ⟨q, hq, hevents⟩ := resolvePushTasks_tasks env.modules
            env.providerPlugins env.resourceStatus env.providers ts hts t ht
          rw [hevents] at hev
          simp at hev
        · simp [Event.isLiteralEv] at hlit
    · simp at hsf

/-- C1 counterexample: in the restoreBackend run of `envC1` the provider
initEnv task receives the team-provider-info metadata, while the previously
loaded meta (the state-manager meta) holds a different provider entry — so
the meta used downstream does not equal the previously loaded meta. -/
theorem c1_counterexample :
    envC1.restoreBackend = true ∧
    Event.providerInitEnv "awscloudformation" (.atom "tpi")
      ∈ (initializeEnv envC1).1 ∧
    getKey envC1.initialMetaStore "providers"
      = .obj [("awscloudformation", .atom "old")] ∧
    getKey [("awscloudformation", .atom "old")] "awscloudformation"
      = .atom "old" ∧
    Val.atom "tpi" ≠ Val.atom "old" := by
  have htr : (initializeEnv envC1).1 = trC1 := rfl
  refine ⟨rfl, ?_, rfl, rfl, ?_⟩
  · rw [htr]
    exact List.Mem.tail _ (List.Mem.tail _ (List.Mem.head _))
  · intro hh
    injection hh with hs
    exact absurd hs (by decide)

/-- Witness for C1 (amended), on `envC1`: no merge-path call, no persisted
meta, and the provider metadata passed downstream equals the base-meta
entry built from team-provider info. -/
theorem c1_restore_backend_witness :
    (initializeEnv envC1).1.countP Event.isMergeCallEv = 0 ∧
    (initializeEnv envC1).1.countP Event.isSetMetaEv = 0 ∧
    Val.atom "tpi"
      = getKey [("awscloudformation", tpiProviderMeta envC1)] "awscloudformation" := by
  have h := c1_restore_backend envC1 rfl
  refine ⟨h.1, h.2.1, h.2.2 "awscloudformation" (.atom "tpi") ?_⟩
  have htr : (initializeEnv envC1).1 = trC1 := rfl
  rw [htr]
  exact List.Mem.tail _ (List.Mem.tail _ (List.Mem.head _))

theorem mergeCategoryEnvParams_congr (a b : EnvParamManager) (meta : Obj)
    (c s : String)
    (h1 : a.hasResourceParamManager c s = b.hasResourceParamManager c s)
    (h2 : a.getResourceParamManager c s = b.getResourceParamManager c s) :
    mergeCategoryEnvParamsIntoAmplifyMeta a meta c s
      = mergeCategoryEnvParamsIntoAmplifyMeta b meta c s := by
  unfold mergeCategoryEnvParamsIntoAmplifyMeta overridesPresent
  rw [h1, h2]

theorem mergeStep_congr_epm (env : Env) (epm2 : EnvParamManager)
    (hagree : agreeAt env.envParamManager epm2 "hosting" "ElasticContainer")
    (base : Obj) :
    mergeStep { env with envParamManager := epm2 } base = mergeStep env base := by
  have hc := mergeCategoryEnvParams_congr epm2 env.envParamManager
    (mergeBackendConfigIntoAmplifyMeta base env.backendConfig)
    "hosting" "ElasticContainer" hagree.1.symm hagree.2.symm
  simp only [mergeStep]
  rw [hc]

theorem initializeEnvCore_congr_epm (env : Env) (epm2 : EnvParamManager)
    (hagree : agreeAt env.envParamManager epm2 "hosting" "ElasticContainer") :
    initializeEnvCore { env with envParamManager := epm2 }
      = initializeEnvCore env := by
  unfold initializeEnvCore
  rw [show baseMetaOf { env with envParamManager := epm2 } = baseMetaOf env
    from rfl]
  rw [mergeStep_congr_epm env epm2 hagree (baseMetaOf env)]
  rfl

theorem initializeEnv_congr_epm (env : Env) (epm2 : EnvParamManager)
    (hagree : agreeAt env.envParamManager epm2 "hosting" "ElasticContainer") :
    initializeEnv { env with envParamManager := epm2 } = initializeEnv env := by
  unfold initializeEnv
  rw [initializeEnvCore_congr_epm env epm2 hagree]

/-- C10: the environment-parameter merge is applied only to the hard-coded
(hosting, ElasticContainer) pair — every parameter-merge call of any run
names exactly that pair; overrides recorded for any other pair never change
the run at all; and a successful merge leaves every field of the meta
outside `meta.hosting.ElasticContainer` unchanged. -/
theorem c10_param_merge_frame :
    (∀ (env : Env) (c s : String),
      Event.mergeEnvParams c s ∈ (initializeEnv env).1 →
      c = "hosting" ∧ s = "ElasticContainer") ∧
    (∀ (env : Env) (epm2 : EnvParamManager),
      agreeAt env.envParamManager epm2 "hosting" "ElasticContainer" →
      initializeEnv { env with envParamManager := epm2 } = initializeEnv env) ∧
    (∀ (epm : EnvParamManager) (meta res : Obj),
      mergeCategoryEnvParamsIntoAmplifyMeta epm meta "hosting"
        "ElasticContainer" = .ok res →
      (∀ k, k ≠ "hosting" → getKey res k = getKey meta k) ∧
      (∀ catObj catObj2, getKey meta "hosting" = .obj catObj →
        getKey res "hosting" = .obj catObj2 →
        ∀ k2, k2 ≠ "ElasticContainer" → getKey catObj2 k2 = getKey catObj k2)) := by
  refine ⟨?_, ?_, ?_⟩
  · intro env c s hmem
    rcases initializeEnv_mem env _ hmem with hcore | hsf
    · rcases initializeEnvCore_mem env _ hcore with h1 |
        ⟨evs0, m, s2, ct, pt, hm, hct, hpt, htl⟩
      · rcases mergeStep_events env (baseMetaOf env) _ h1 with
          heq | heq | ⟨m2, heq⟩
        · exact absurd heq (by simp)
        · injection heq with hc hs
          exact ⟨hc, hs⟩
        · exact absurd heq (by simp)
      · rcases tailEvent_taskEv_or_literal env pt ct _
          (providerTasks_wf env.modules env.providerPlugins m env.providers pt hpt)
          (categoryTasks_wf env.modules env.categoryPluginInfo
            (s2.map Prod.fst) ct hct) htl with h2 | h2
        · simp [Event.isTaskEv] at h2
        · simp [Event.isLiteralEv] at h2
    · simp at hsf
  · intro env epm2 hagree
    exact initializeEnv_congr_epm env epm2 hagree
  · intro epm meta res hok
    by_cases hover : overridesPresent epm "hosting" "ElasticContainer" = true
    · cases hcat : getKey meta "hosting" with
      | obj catObj =>
        cases hsvc : getKey catObj "ElasticContainer" with
        | obj svcObj =>
          simp only [mergeCategoryEnvParamsIntoAmplifyMeta, hover, if_true,
            hcat, hsvc] at hok
          injection hok with hres
          constructor
          · intro k hk
            rw [← hres]
            exact getKey_setKey_of_ne meta "hosting" k _ hk
          · intro c1 c2 hc1 hc2 k2 hk2
            injection hc1 with hc1e
            subst hc1e
            rw [← hres, getKey_setKey_self] at hc2
            injection hc2 with hc2e
            rw [← hc2e]
            exact getKey_setKey_of_ne _ "ElasticContainer" k2 _ hk2
        | undefined =>
          simp only [mergeCategoryEnvParamsIntoAmplifyMeta, hover, if_true,
            hcat, hsvc] at hok
          exact Except.noConfusion hok
        | atom a =>
          simp only [mergeCategoryEnvParamsIntoAmplifyMeta, hover, if_true,
            hcat, hsvc] at hok
          exact Except.noConfusion hok
      | undefined =>
        simp only [mergeCategoryEnvParamsIntoAmplifyMeta, hover, if_true,
          hcat] at hok
        exact Except.noConfusion hok
      | atom a =>
        simp only [mergeCategoryEnvParamsIntoAmplifyMeta, hover, if_true,
          hcat] at hok
        exact Except.noConfusion hok
    · have hov2 : overridesPresent epm "hosting" "ElasticContainer" = false := by
        cases hcase : overridesPresent epm "hosting" "ElasticContainer" with
        | false => rfl
        | true => exact absurd hcase hover
      simp only [mergeCategoryEnvParamsIntoAmplifyMeta, hov2,
        Bool.false_eq_true, if_false] at hok
      injection hok with hres
      subst hres
      refine ⟨fun k hk => rfl, fun c1 c2 hc1 hc2 k2 hk2 => ?_⟩
      rw [hc2] at hc1
      injection hc1 with h3
      rw [h3]

/-- Witness for C10: the one parameter-merge call of the `envC3` run names
(hosting, ElasticContainer); overrides recorded only for (auth, Cognito)
leave the whole run unchanged; and the merge on `metaC2` leaves the `auth`
entry untouched. -/
theorem c10_param_merge_frame_witness :
    ("hosting" = "hosting" ∧ "ElasticContainer" = "ElasticContainer") ∧
    initializeEnv { envC3 with envParamManager := epmOther }
      = initializeEnv envC3 ∧
    getKey resC10 "auth" = getKey metaC2 "auth" := by
  refine ⟨?_, c10_param_merge_frame.2.1 envC3 epmOther ⟨rfl, rfl⟩,
    (c10_param_merge_frame.2.2 epmC2 metaC2 resC10 rfl).1 "auth" (by decide)⟩
  apply c10_param_merge_frame.1 envC3 "hosting" "ElasticContainer"
  have htr : (initializeEnv envC3).1 = trC3 := rfl
  rw [htr]
  exact List.Mem.tail _ (List.Mem.head _)

end InitializeEnvModel
